import Mathlib

/-!
Verification development for the token-refresh tool
(`refresh_ivs_token.py` of the Soundscapes repository).

The Python source is shallowly embedded: Python values that can occur in
the program's data flow are the inductive `PyVal`; datetimes are wall-clock
microseconds since the Unix epoch together with an optional UTC offset
(`PyDateTime`, microsecond granularity, as CPython's `datetime`); file
contents are `Content`;
fallible Python operations return `Except PyErr`; the orchestrator `main`
is a pure function from an environment describing the invocation, the
filesystem and the network outcomes to a run result (exit code, effect
counters, final file contents, output lines).
-/

/-- A Python `datetime`: `naive` is the wall-clock reading in microseconds
since 1970-01-01T00:00:00 taken as if it were UTC, `off` is the `tzinfo`
UTC offset in microseconds (`none` = a naive datetime). Microsecond
granularity, matching CPython's `datetime`. -/
structure PyDateTime where
  naive : Int
  off : Option Int
deriving DecidableEq, Repr

/-- The absolute instant of an aware `PyDateTime` (microseconds since the
epoch). -/
def utcInstant (d : PyDateTime) : Int :=
  d.naive - d.off.getD 0

/-- Python values reachable in the program: JSON scalars and containers,
plus `datetime` objects (boto3 responses carry them). -/
inductive PyVal where
  | vnull
  | vbool (b : Bool)
  | vint (n : Int)
  | vstr (s : String)
  | vlist (xs : List PyVal)
  | vdict (kvs : List (String × PyVal))
  | vdatetime (d : PyDateTime)

/-- Errors of the embedded Python operations that the source does not
catch on the modelled paths. -/
inductive PyErr where
  | typeError
  | keyError
deriving DecidableEq, Repr

/-- Association-list lookup; models indexing a Python dict (whose keys are
unique, so first-match is dict semantics). -/
def lookupKV (kvs : List (String × PyVal)) (key : String) : Option PyVal :=
  match kvs with
  | [] => none
  | (k, v) :: rest => if k = key then some v else lookupKV rest key

/-- Python `dict.get(key)` with default `None`. -/
def dictGet (kvs : List (String × PyVal)) (key : String) : PyVal :=
  (lookupKV kvs key).getD .vnull

/-- Python subscription `v[key]` with a string key: succeeds only on a dict
holding the key (`KeyError` if absent); on every other value it raises
`TypeError` (string/list indices must be integers, scalars not
subscriptable). -/
def pyGetItem (v : PyVal) (key : String) : Except PyErr PyVal :=
  match v with
  | .vdict kvs =>
    match lookupKV kvs key with
    | some x => .ok x
    | none => .error .keyError
  | _ => .error .typeError

/-- Does the char list `n` start the char list `h`? -/
def startsList : List Char → List Char → Bool
  | [], _ => true
  | _ :: _, [] => false
  | a :: as, b :: bs => a == b && startsList as bs

/-- Does the char list `n` occur contiguously inside `h`? -/
def subAt : List Char → List Char → Bool
  | n, [] => n.isEmpty
  | n, h :: t => startsList n (h :: t) || subAt n t

/-- Python substring test `needle in hay` on strings. -/
def strContainsSub (hay needle : String) : Bool :=
  subAt needle.data hay.data

/-- Is the value equal (Python `==`) to the given string? Values of other
types compare unequal to a `str`. -/
def pyEqStr : PyVal → String → Bool
  | .vstr t, s => t == s
  | _, _ => false

/-- Python membership `key in v` for a string key: dict key lookup,
substring test on a string, element equality on a list; `TypeError` on
non-container scalars (`int`, `bool`, `None`, `float`, `datetime`). -/
def pyContains (v : PyVal) (key : String) : Except PyErr Bool :=
  match v with
  | .vdict kvs => .ok (kvs.any (fun kv => kv.1 == key))
  | .vstr s => .ok (strContainsSub s key)
  | .vlist xs => .ok (xs.any (fun x => pyEqStr x key))
  | _ => .error .typeError

/-- Python truthiness of a value. -/
def pyTruthy : PyVal → Bool
  | .vnull => false
  | .vbool b => b
  | .vint n => n != 0
  | .vstr s => s != ""
  | .vlist xs => !xs.isEmpty
  | .vdict kvs => !kvs.isEmpty
  | .vdatetime _ => true

/-- Python `str()` for the value kinds a cached/issued `expirationTime`
field can hold besides `datetime` (the `datetime` case is handled before
`str()` is reached in the source); container reprs are abbreviated, they
are unreachable with a well-formed issuing-service response. -/
def pyStrOf : PyVal → String
  | .vnull => "None"
  | .vbool b => cond b "True" "False"
  | .vint n => toString n
  | .vstr s => s
  | .vlist _ => "<list>"
  | .vdict _ => "<dict>"
  | .vdatetime _ => "<datetime>"

/-- The whitespace characters Python `str.strip()` removes: the ASCII
whitespace and separator controls plus the Unicode space characters
(NEL, NBSP, Ogham space, the U+2000 range, line/paragraph separators,
narrow no-break space, medium mathematical space, ideographic space). -/
def isPySpace (c : Char) : Bool :=
  let n := c.toNat
  (9 ≤ n && n ≤ 13) || (28 ≤ n && n ≤ 32) || n == 133 || n == 160 || n == 5760 ||
    (8192 ≤ n && n ≤ 8202) || n == 8232 || n == 8233 || n == 8239 || n == 8287 || n == 12288

/-- Python `str.strip()`. -/
def pyStrip (s : String) : String :=
  ⟨(((s.data.dropWhile isPySpace).reverse).dropWhile isPySpace).reverse⟩

/-- Byte content of a file, at the granularity the claims need:
`jdoc v lead trail` is the serialization `json.dumps(v, indent=2)` of a
JSON-representable value `v`, surrounded by `lead` spaces and `trail`
newlines of padding (`json.dumps` is deterministic and injective on such
values, so equality of this constructor models byte equality); `text s` is
a literal byte string whose stripped form is not a valid JSON document. -/
inductive Content where
  | jdoc (v : PyVal) (lead trail : Nat)
  | text (s : String)

/-- Python `str.strip()` on a file's byte content: padding around a JSON
document is whitespace, so it goes away; plain text is stripped. -/
def Content.strip : Content → Content
  | .jdoc v _ _ => .jdoc v 0 0
  | .text s => .text (pyStrip s)

/-- `json.loads` on (already stripped) byte content: the decoded value for
a JSON document, decode failure (`json.JSONDecodeError`) otherwise. -/
def Content.loads : Content → Option PyVal
  | .jdoc v _ _ => some v
  | .text _ => none

/-- Embedding of `load_existing_token`: given the file found at the cache
path (`none` = the path does not exist), return `(meta, raw)` as the
source does. Only `json.JSONDecodeError` is caught there, so the
membership tests `"token" in meta` / `"expirationTime" in meta` raise an
uncaught `TypeError` when the decoded document is a non-container scalar. -/
def load_existing_token (file : Option Content) : Except PyErr (Option PyVal × Option Content) :=
  match file with
  | none => .ok (none, none)
  | some c =>
    let raw := c.strip
    match raw.loads with
    | some meta =>
      match pyContains meta "token" with
      | .error e => .error e
      | .ok t =>
        if t then
          match pyContains meta "expirationTime" with
          | .error e => .error e
          | .ok e2 =>
            if e2 then .ok (some meta, some raw) else .ok (none, some raw)
        else .ok (none, some raw)
    | none => .ok (none, some raw)

/-- The Unicode decimal-digit ranges (category Nd) beyond ASCII `0-9`:
Python's `\d` in a `str` pattern matches exactly the Nd category. -/
def ndRangesTail : List (Nat × Nat) :=
  [(1632, 1641), (1776, 1785), (1984, 1993), (2406, 2415), (2534, 2543), (2662, 2671),
   (2790, 2799), (2918, 2927), (3046, 3055), (3174, 3183), (3302, 3311), (3430, 3439),
   (3558, 3567), (3664, 3673), (3792, 3801), (3872, 3881), (4160, 4169), (4240, 4249),
   (6112, 6121), (6160, 6169), (6470, 6479), (6608, 6617), (6784, 6793), (6800, 6809),
   (6992, 7001), (7088, 7097), (7232, 7241), (7248, 7257), (42528, 42537), (43216, 43225),
   (43264, 43273), (43472, 43481), (43504, 43513), (43600, 43609), (44016, 44025),
   (65296, 65305), (66720, 66729), (68912, 68921), (69734, 69743), (69872, 69881),
   (69942, 69951), (70096, 70105), (70384, 70393), (70736, 70745), (70864, 70873),
   (71248, 71257), (71360, 71369), (71472, 71481), (71904, 71913), (72016, 72025),
   (72784, 72793), (73040, 73049), (73120, 73129), (92768, 92777), (92864, 92873),
   (93008, 93017), (120782, 120831), (123200, 123209), (123632, 123641),
   (125264, 125273), (130032, 130041)]

/-- The character class of `\d` in the source's regex: any Unicode decimal
digit (ASCII digits, or a code point in one of the Nd ranges). -/
def isPyDigit (c : Char) : Bool :=
  c.isDigit || ndRangesTail.any (fun r => r.1 ≤ c.toNat && c.toNat ≤ r.2)

/-! ## ArnInspector: `extract_account_id_from_arn`

The source matches `re.match(r"^arn:[^:]+:[^:]+:[^:]*:(\d{12}):.+$", arn)`
and returns group 1. The matcher below follows Python `re` semantics for
this particular pattern on the character list of the string: `[^:]`
matches any character other than `:` (newlines included), `.` matches any
character other than a newline, and the `$` anchor also matches just
before one newline that ends the string. `\d` matches any Unicode decimal
digit (`isPyDigit`). -/

/-- Consume one `[^:]*:` block: the characters before the first `:` and
the remainder after it; `none` when the list holds no `:`. -/
def takeSeg : List Char → Option (List Char × List Char)
  | [] => none
  | c :: rest =>
    if c = ':' then some ([], rest)
    else
      match takeSeg rest with
      | some (seg, r) => some (c :: seg, r)
      | none => none

/-- The continuation after a non-empty `.+` body: remaining characters
must be non-newline, except that a single final newline is allowed (the
`$` anchor). -/
def tailOk : List Char → Bool
  | [] => true
  | c :: rest => if c = '\n' then rest.isEmpty else tailOk rest

/-- Does the list match `.+$` (one or more non-newline characters, then
the end of the string or a final newline)? -/
def restOk : List Char → Bool
  | [] => false
  | c :: rest => c != '\n' && tailOk rest

/-- After the captured 12 digits the pattern requires a literal `:` and
then a `.+$` resource part. -/
def afterAcct : List Char → Bool
  | [] => false
  | c :: res => c == ':' && restOk res

/-- Match `[^:]+:[^:]+:[^:]*:(\d{12}):.+$` against the characters after
the literal `arn:`, returning the captured 12-digit group. -/
def arnMatchTail (l : List Char) : Option (List Char) :=
  match takeSeg l with
  | none => none
  | some (p, r1) =>
    if p.isEmpty then none
    else
      match takeSeg r1 with
      | none => none
      | some (sv, r2) =>
        if sv.isEmpty then none
        else
          match takeSeg r2 with
          | none => none
          | some (_, r3) =>
            let acct := r3.take 12
            if acct.length = 12 ∧ acct.all isPyDigit ∧ afterAcct (r3.drop 12) then
              some acct
            else none

/-- Embedding of `extract_account_id_from_arn`: extract a 12-digit AWS
account ID from a standard ARN, or return `none`. -/
def extract_account_id_from_arn (s : String) : Option String :=
  match s.data with
  | c1 :: c2 :: c3 :: c4 :: rest =>
    if c1 = 'a' ∧ c2 = 'r' ∧ c3 = 'n' ∧ c4 = ':' then
      match arnMatchTail rest with
      | some acct => some ⟨acct⟩
      | none => none
    else none
  | _ => none

/-! ## Civil-calendar arithmetic and `datetime` string conversions

`datetime.isoformat` / `datetime.fromisoformat` need conversions between
a day count and a proleptic-Gregorian civil date; the standard era-based
algorithms are used, over `Nat` day counts measured from 0000-03-01.
`datetime.fromisoformat` itself is modelled after the C implementation of
CPython 3.11 (`Modules/_datetimemodule.c`), which operates on the UTF-8
bytes of the argument after replacing a non-ASCII separator character at
position 7, 8 or 10 with `T`. -/

/-- Civil date `(year, month, day)` of day `z`, where `z` counts days from
0000-03-01 of the proleptic Gregorian calendar. The year is resolved with
the divmod cascade CPython's `datetime` uses (eras of 146097 days, then
centuries, 4-year groups and years; the century and year quotients use the
`(4*x+3)/len` form so the last day of a leap century or leap year stays in
its group), adapted to March-based years so the month and day fall out of
the standard 153-day 5-month pattern. -/
def civilFromDays (z : Nat) : Nat × Nat × Nat :=
  let doe := z % 146097
  let era := z / 146097
  let n100 := (4 * doe + 3) / 146097
  let r100 := doe - 36524 * n100
  let n4 := r100 / 1461
  let r4 := r100 % 1461
  let n1 := (4 * r4 + 3) / 1461
  let doy := r4 - 365 * n1
  let yoe := 100 * n100 + 4 * n4 + n1
  let mp := (5 * doy + 2) / 153
  let d := doy - (153 * mp + 2) / 5 + 1
  let m := if mp < 10 then mp + 3 else mp - 9
  (yoe + era * 400 + (if m ≤ 2 then 1 else 0), m, d)

/-- Day count (days from 0000-03-01) of the civil date `(y, m, d)`;
defined for `1 ≤ y`, `1 ≤ m ≤ 12`. -/
def daysFromCivil (y m d : Nat) : Nat :=
  let y2 := if m ≤ 2 then y - 1 else y
  let era := y2 / 400
  let yoe := y2 % 400
  let doy := (153 * (if 2 < m then m - 3 else m + 9) + 2) / 5 + d - 1
  let doe := yoe * 365 + yoe / 4 - yoe / 100 + doy
  era * 146097 + doe

/-- Seconds from 0001-01-01T00:00:00 to the Unix epoch. -/
def epochBias : Nat := 62135596800

/-- `calendar` leap-year test, as `datetime._is_leap`. -/
def isLeapYear (y : Nat) : Bool := y % 4 == 0 && (y % 100 != 0 || y % 400 == 0)

/-- The length of a month, as `datetime._days_in_month`. -/
def daysInMonth (y m : Nat) : Nat :=
  if m = 2 then (if isLeapYear y then 29 else 28)
  else if m = 4 ∨ m = 6 ∨ m = 9 ∨ m = 11 then 30 else 31

/-- Two-digit zero-padded decimal rendering (for `n < 100`). -/
def pad2 (n : Nat) : List Char :=
  [Nat.digitChar (n / 10 % 10), Nat.digitChar (n % 10)]

/-- Four-digit zero-padded decimal rendering (for `n < 10000`). -/
def pad4 (n : Nat) : List Char :=
  [Nat.digitChar (n / 1000 % 10), Nat.digitChar (n / 100 % 10),
   Nat.digitChar (n / 10 % 10), Nat.digitChar (n % 10)]

/-- Six-digit zero-padded decimal rendering (for `n < 1000000`). -/
def pad6 (n : Nat) : List Char :=
  [Nat.digitChar (n / 100000 % 10), Nat.digitChar (n / 10000 % 10),
   Nat.digitChar (n / 1000 % 10), Nat.digitChar (n / 100 % 10),
   Nat.digitChar (n / 10 % 10), Nat.digitChar (n % 10)]

/-- Model of `datetime.isoformat()` on an aware UTC datetime of instant
`t` (microseconds since the Unix epoch): `YYYY-MM-DDTHH:MM:SS[.ffffff]+00:00`,
the fractional part printed exactly when the microseconds are non-zero.
Meaningful for years 1..9999. -/
def isoformatAwareUTC (t : Int) : String :=
  let n := (t + (62135596800000000 : Int)).toNat
  let us := n % 1000000
  let sec := n / 1000000
  let g := sec / 86400
  let sod := sec % 86400
  let c := civilFromDays (g + 306)
  ⟨pad4 c.1 ++ ('-' :: (pad2 c.2.1 ++ ('-' :: (pad2 c.2.2 ++ ('T' :: (pad2 (sod / 3600) ++ (':' :: (pad2 (sod % 3600 / 60) ++ (':' :: (pad2 (sod % 60) ++ ((if us = 0 then [] else '.' :: pad6 us) ++ ['+', '0', '0', ':', '0', '0'])))))))))))⟩

/-- UTF-8 encoding of one character, as the list of its byte values. -/
def utf8Bytes (c : Char) : List Nat :=
  let n := c.toNat
  if n < 128 then [n]
  else if n < 2048 then [192 + n / 64, 128 + n % 64]
  else if n < 65536 then [224 + n / 4096, 128 + n / 64 % 64, 128 + n % 64]
  else [240 + n / 262144, 128 + n / 4096 % 64, 128 + n / 64 % 64, 128 + n % 64]

/-- Replace the character at index `i` by `T` when it is not ASCII (one
step of CPython's `_sanitize_isoformat_str`). -/
def saniAt (l : List Char) (i : Nat) : List Char :=
  match l[i]? with
  | some c => if 128 ≤ c.toNat then l.set i 'T' else l
  | none => l

/-- CPython's `_sanitize_isoformat_str`: the date-time separator can only
sit at character position 7, 8 or 10, and a non-ASCII character there is
replaced by `T` before the string is encoded to UTF-8. -/
def sanitizeSep (l : List Char) : List Char :=
  saniAt (saniAt (saniAt l 7) 8) 10

/-- UTF-8 encoding of a character list as a byte list. -/
def encodeUtf8 : List Char → List Nat
  | [] => []
  | c :: t => utf8Bytes c ++ encodeUtf8 t

/-- Is the byte an ASCII decimal digit? -/
def isDigitB (b : Nat) : Bool := 48 ≤ b && b ≤ 57

/-- Read exactly one ASCII-digit byte. -/
def read1b : List Nat → Option (Nat × List Nat)
  | b :: rest => if isDigitB b then some (b - 48, rest) else none
  | _ => none

/-- Read exactly two ASCII-digit bytes. -/
def read2b : List Nat → Option (Nat × List Nat)
  | b1 :: b2 :: rest =>
    if isDigitB b1 && isDigitB b2 then some ((b1 - 48) * 10 + (b2 - 48), rest) else none
  | _ => none

/-- Read exactly four ASCII-digit bytes. -/
def read4b : List Nat → Option (Nat × List Nat)
  | b1 :: b2 :: b3 :: b4 :: rest =>
    if isDigitB b1 && isDigitB b2 && isDigitB b3 && isDigitB b4 then
      some ((b1 - 48) * 1000 + (b2 - 48) * 100 + (b3 - 48) * 10 + (b4 - 48), rest)
    else none
  | _ => none

/-- Read exactly `n` ASCII-digit bytes as a decimal number (CPython's
`parse_digits`). -/
def readNb : Nat → List Nat → Option (Nat × List Nat)
  | 0, l => some (0, l)
  | _ + 1, [] => none
  | n + 1, b :: rest =>
    if isDigitB b then
      match readNb n rest with
      | some (v, r) => some ((b - 48) * 10 ^ n + v, r)
      | none => none
    else none

/-- The byte at index `i` (0 when past the end, like the NUL terminator a
C string scan would read). -/
def nthByte : List Nat → Nat → Nat
  | [], _ => 0
  | b :: _, 0 => b
  | _ :: t, n + 1 => nthByte t n

/-- How many leading bytes are ASCII digits (the scanning loop of the
basic-format week-date branch of the separator finder). -/
def countDigits : List Nat → Nat
  | [] => 0
  | b :: t => if isDigitB b then countDigits t + 1 else 0

/-- CPython's `_find_isoformat_datetime_separator`: the position of the
character separating the date from the time, resolved from the shape of
the first eleven bytes (extended or basic format, week dates, and the
documented hyphen-versus-digit ambiguity for `YYYY-Www-D`); `none` is a
`ValueError`. Only called on strings of length at least 7. -/
def findSep (l : List Nat) : Option Nat :=
  let n := l.length
  if n = 7 then some 7
  else if nthByte l 4 = 45 then
    if nthByte l 5 = 87 then
      if n < 8 then none
      else if 8 < n ∧ nthByte l 8 = 45 then
        if n = 9 then none
        else if 10 < n ∧ isDigitB (nthByte l 10) then some 8
        else some 10
      else some 8
    else some 10
  else if nthByte l 4 = 87 then
    let idx := 7 + countDigits (l.drop 7)
    if idx < 9 then some idx
    else if idx % 2 = 0 then some 7 else some 8
  else some 8

/-- Proleptic-Gregorian ordinal of a civil date (`datetime._ymd2ord`):
0001-01-01 is day 1. -/
def ymd2ord (y m d : Nat) : Nat := daysFromCivil y m d - 305

/-- `datetime._isoweek_to_gregorian`: convert an ISO year/week/weekday
triple to a civil date, validating the ISO year range, the week number
(53 only in long years) and the weekday; `none` is a `ValueError`. The
week-1 Monday is the Monday of the week holding January 4th. -/
def isoweekToGregorian (year week day : Nat) : Option (Nat × Nat × Nat) :=
  if ¬(1 ≤ year ∧ year ≤ 9999) then none
  else if ¬((0 < week ∧ week < 53) ∨
      (week = 53 ∧ (ymd2ord year 1 1 % 7 = 4 ∨ (ymd2ord year 1 1 % 7 = 3 ∧ isLeapYear year)))) then
    none
  else if ¬(0 < day ∧ day < 8) then none
  else
    let firstday := ymd2ord year 1 1
    let firstweekday := (firstday + 6) % 7
    let week1monday := (if 3 < firstweekday then firstday + 7 else firstday) - firstweekday
    some (civilFromDays (week1monday + (week - 1) * 7 + (day - 1) + 305))

/-- CPython's `parse_isoformat_date` on the date slice: `YYYY[-]MM[-]DD`
or the week forms `YYYY[-]Www[[-]D]`, with a consistent use of the dash
separator, exact consumption of the slice, and the week forms routed
through `isoweekToGregorian`. -/
def parseIsoDate (l : List Nat) : Option (Nat × Nat × Nat) :=
  match read4b l with
  | none => none
  | some (year, r0) =>
    let hasSep := nthByte r0 0 == 45
    let r1 := if hasSep then r0.drop 1 else r0
    if nthByte r1 0 == 87 then
      match read2b (r1.drop 1) with
      | none => none
      | some (weekno, r2) =>
        match r2 with
        | [] => isoweekToGregorian year weekno 1
        | b :: r3 =>
          if (b == 45) != hasSep then none
          else
            let r4 := if hasSep then r3 else b :: r3
            match read1b r4 with
            | none => none
            | some (dayno, r5) =>
              if r5.isEmpty then isoweekToGregorian year weekno dayno else none
    else
      match read2b r1 with
      | none => none
      | some (month, r2) =>
        if (nthByte r2 0 == 45) != hasSep then none
        else
          let r3 := if hasSep then r2.drop 1 else r2
          match read2b r3 with
          | none => none
          | some (day, r4) =>
            if r4.isEmpty then some (year, month, day) else none

/-- The trailing scan after the (at most six) fraction digits: further
digits are ignored, a NUL byte ends the scan cleanly, and any other byte
leaves the leftover flag cleared (`false` = leftover bytes remain, which
the caller tolerates only when a timezone part follows). -/
def fracTail : List Nat → Bool
  | [] => true
  | b :: t => if isDigitB b then fracTail t else b == 0

/-- The fraction stage of CPython's `parse_hh_mm_ss_ff`: read
`min 6 remaining` digit bytes, scale to microseconds, then scan the
tail with `fracTail`. -/
def parseFracB (l : List Nat) : Option (Nat × Bool) :=
  let toParse := min 6 l.length
  match readNb toParse l with
  | none => none
  | some (v, r) => some (v * 10 ^ (6 - toParse), fracTail r)

/-- CPython's `parse_hh_mm_ss_ff` on a byte slice followed by `nextB`
(the byte just past the slice: the timezone sign character, or 0 at the
end of the string). Each of the three components is two digits; after the
first component the separator style (`:` or none) is fixed; a `.` or `,`
switches to the fraction stage; in the separator-less style a non-matching
byte is pushed back. Reading the byte at the end of the slice returns
immediately: cleanly (flag `true`) when that byte is NUL, with the
leftover flag (`false`) otherwise. `none` is a hard `ValueError`. -/
def parseHMSF (l : List Nat) (nextB : Nat) : Option ((Nat × Nat × Nat × Nat) × Bool) :=
  match read2b l with
  | none => none
  | some (hh, r1) =>
    match r1 with
    | [] => some ((hh, 0, 0, 0), nextB == 0)
    | [c] => some ((hh, 0, 0, 0), c == 0)
    | c :: r2 =>
      let hasSep := c == 58
      if c == 46 || c == 44 then
        match parseFracB r2 with
        | none => none
        | some (us, cl) => some ((hh, 0, 0, us), cl)
      else
        match read2b (if hasSep then r2 else r1) with
        | none => none
        | some (mi, r3) =>
          match r3 with
          | [] => some ((hh, mi, 0, 0), nextB == 0)
          | [c2] => some ((hh, mi, 0, 0), c2 == 0)
          | c2 :: r4 =>
            if hasSep && c2 == 58 then
              match read2b r4 with
              | none => none
              | some (ss, r5) =>
                match r5 with
                | [] => some ((hh, mi, ss, 0), nextB == 0)
                | [c3] => some ((hh, mi, ss, 0), c3 == 0)
                | c3 :: r6 =>
                  if c3 == 58 || c3 == 46 || c3 == 44 then
                    match parseFracB r6 with
                    | none => none
                    | some (us, cl) => some ((hh, mi, ss, us), cl)
                  else none
            else if c2 == 46 || c2 == 44 then
              match parseFracB r4 with
              | none => none
              | some (us, cl) => some ((hh, mi, 0, us), cl)
            else if !hasSep then
              match read2b r3 with
              | none => none
              | some (ss, r5) =>
                match r5 with
                | [] => some ((hh, mi, ss, 0), nextB == 0)
                | [c3] => some ((hh, mi, ss, 0), c3 == 0)
                | c3 :: r6 =>
                  if c3 == 46 || c3 == 44 then
                    match parseFracB r6 with
                    | none => none
                    | some (us, cl) => some ((hh, mi, ss, us), cl)
                  else
                    match parseFracB r5 with
                    | none => none
                    | some (us, cl) => some ((hh, mi, ss, us), cl)
            else none

/-- Is the byte a timezone marker (`Z`, `+` or `-`)? -/
def isSignB (b : Nat) : Bool := b == 90 || b == 43 || b == 45

/-- CPython's `parse_isoformat_time`: split at the first timezone marker;
with no timezone the time part must parse cleanly; `Z` must be the last
character (or be followed by a NUL byte); a signed offset is parsed with
`parseHMSF` (cleanly), becomes UTC when its whole-second total is zero
(its fraction is then dropped), and must stay strictly within 24 hours —
the bound `timezone` itself enforces. Returns the time fields and the
offset in microseconds (`none` = a naive result). -/
def parseIsoTime (l : List Nat) : Option ((Nat × Nat × Nat × Nat) × Option Int) :=
  let timestr := l.takeWhile (fun b => !isSignB b)
  let after := l.dropWhile (fun b => !isSignB b)
  match after with
  | [] =>
    match parseHMSF timestr 0 with
    | none => none
    | some (t, clean) => if clean then some (t, none) else none
  | s :: rest =>
    match parseHMSF timestr s with
    | none => none
    | some (t, _) =>
      if s = 90 then
        match rest with
        | [] => some (t, some 0)
        | b :: _ => if b = 0 then some (t, some 0) else none
      else
        match parseHMSF rest 0 with
        | none => none
        | some ((oh, om, osec, ous), cleanz) =>
          if cleanz then
            let secs := oh * 3600 + om * 60 + osec
            let off : Int := if secs = 0 then 0
              else (if s = 45 then -1 else 1) * ((secs * 1000000 + ous : Nat) : Int)
            if -86400000000 < off ∧ off < 86400000000 then some (t, some off) else none
          else none

/-- The epoch microseconds of the naive reading of a civil date plus time
of day and microseconds. -/
def fieldsToEpoch (y mo dy hh mi ss us : Nat) : Int :=
  ((((daysFromCivil y mo dy - 306) * 86400 + hh * 3600 + mi * 60 + ss) * 1000000 + us : Nat) : Int)
    - (epochBias * 1000000 : Nat)

/-- Model of `datetime.fromisoformat` (the C implementation of CPython
3.11): reject strings shorter than 7 characters, sanitize a non-ASCII
separator, encode to UTF-8 bytes, locate the separator, parse the date
slice, parse the time part exactly when a separator character exists, and
build the `datetime` — whose constructor validates the field ranges
(year 1..9999, month, day against the month length, hour 0..23, minute
and second 0..59). `none` is the `ValueError` the source catches. -/
def fromisoformat (s : String) : Option PyDateTime :=
  if s.data.length < 7 then none
  else
    let l := encodeUtf8 (sanitizeSep s.data)
    match findSep l with
    | none => none
    | some sep =>
      match parseIsoDate (l.take sep) with
      | none => none
      | some (y, mo, dy) =>
        match (if sep < l.length then parseIsoTime (l.drop (sep + 1))
               else some ((0, 0, 0, 0), none)) with
        | none => none
        | some ((hh, mi, ss, us), off) =>
          if 1 ≤ y ∧ y ≤ 9999 ∧ 1 ≤ mo ∧ mo ≤ 12 ∧ 1 ≤ dy ∧ dy ≤ daysInMonth y mo ∧
             hh ≤ 23 ∧ mi ≤ 59 ∧ ss ≤ 59 then
            some ⟨fieldsToEpoch y mo dy hh mi ss us, off⟩
          else none

/-! ## ValidityEvaluator, CachedTokenStore writes, MismatchDiagnostics -/

/-- The comparison step of `is_token_valid` once an expiration `datetime`
is in hand: a naive expiration gets `tzinfo=timezone.utc`, then
`now + timedelta(seconds=margin) < expiration` compares the two aware
datetimes by absolute instant (`now` is `datetime.now(timezone.utc)`,
passed as epoch microseconds; the margin is in seconds, as in the
source). -/
def validCompare (d : PyDateTime) (now margin : Int) : Bool :=
  let e := match d.off with
    | none => { naive := d.naive, off := some 0 : PyDateTime }
    | some _ => d
  decide (now + margin * 1000000 < e.naive - e.off.getD 0)

/-- Embedding of `is_token_valid`: look up `meta["expirationTime"]`; a
string is parsed with `fromisoformat`, a `datetime` is used as is, any
other type returns `False`; a naive expiration is treated as UTC; the
strict comparison decides. Every raised error (missing key, non-dict
`meta`, parse failure) is caught by the `except Exception` and yields
`False`. -/
def is_token_valid (meta : PyVal) (now : Int) (safety_margin_seconds : Int) : Bool :=
  match pyGetItem meta "expirationTime" with
  | .error _ => false
  | .ok exp =>
    match exp with
    | .vstr s =>
      match fromisoformat s with
      | none => false
      | some d => validCompare d now safety_margin_seconds
    | .vdatetime d => validCompare d now safety_margin_seconds
    | _ => false

/-- Embedding of `backup_old_file`: given the file currently at the cache
path, the `old_raw` value returned by `load_existing_token`, the file's
name, the local-wall-clock `strftime("%Y%m%dT%H%M%S")` stamp and whether
`Path.rename` raises `OSError`, return the content left at the primary
path, the backup file (name and content) and the number of `write_text`
calls made. A successful rename moves the bytes; the fallback writes
`old_raw or ""` to the backup path. No-op when the path does not exist. -/
def backup_old_file (file : Option Content) (oldRaw : Option Content)
    (name ts : String) (renameFails : Bool) :
    Option Content × Option (String × Content) × Nat :=
  match file with
  | none => (none, none, 0)
  | some c =>
    let backupName := name ++ "." ++ ts ++ ".bak"
    if renameFails then (some c, some (backupName, oldRaw.getD (Content.text "")), 1)
    else (none, some (backupName, c), 0)

/-- The dict `write_new_token` serializes: the issued token's fields read
with `.get` (so `None` when absent), with `expirationTime` rendered as the
ISO string of its UTC conversion when it is a `datetime` (an aware value
shifts by its own offset, a naive one is interpreted in the local timezone
`localOff`), and `str()` of the value otherwise. -/
def writeMeta (stage_arn : String) (participant_token : List (String × PyVal))
    (localOff : Int) : List (String × PyVal) :=
  let exp := dictGet participant_token "expirationTime"
  let expStr := match exp with
    | .vdatetime d =>
      isoformatAwareUTC (match d.off with
        | some o => d.naive - o
        | none => d.naive - localOff)
    | x => pyStrOf x
  [("stageArn", .vstr stage_arn),
   ("token", dictGet participant_token "token"),
   ("participantId", dictGet participant_token "participantId"),
   ("expirationTime", .vstr expStr),
   ("duration", dictGet participant_token "duration"),
   ("capabilities", dictGet participant_token "capabilities"),
   ("userId", dictGet participant_token "userId")]

/-- Embedding of `write_new_token`: the cache file is fully overwritten
with the JSON serialization of `writeMeta`. -/
def write_new_token (stage_arn : String) (participant_token : List (String × PyVal))
    (localOff : Int) : Content :=
  Content.jdoc (PyVal.vdict (writeMeta stage_arn participant_token localOff)) 0 0

/-- One line of the program's standard output / standard error, with the
interpolated values the claims talk about carried as fields. -/
inductive OutLine where
  | errDirNotFile
  | createdDir
  | errDirCreate
  | errParentNotDir
  | errBadArn (arn : String)
  | errDuration
  | stillValid
  | tokenLine (tok : PyVal)
  | creatingNew
  | errIssuance
  | debugStageAccount (acct : String)
  | callerIdentityLine (arn acct uid : PyVal)
  | stsFailed
  | hintAccountMismatch (credAcct : PyVal) (stageAcct : String)
  | newTokenWritten

/-- Embedding of `try_print_caller_identity`: the STS call either returns
an identity dict or raises; every exception is caught, a debug note is
printed and `None` is returned, so the lookup never aborts the caller.
Returns the identity (or `None`) and the line printed. -/
def try_print_caller_identity (sts : Option (List (String × PyVal))) :
    Option (List (String × PyVal)) × OutLine :=
  match sts with
  | some ident =>
    (some ident,
     .callerIdentityLine (dictGet ident "Arn") (dictGet ident "Account") (dictGet ident "UserId"))
  | none => (none, .stsFailed)

/-! ## RefreshOrchestrator: `main` -/

/-- What sits at the cache path before the run. -/
inductive PathState where
  | missing
  | file (c : Content)
  | dir

/-- What sits at the cache path's parent directory before the run:
a directory; a non-directory entry; nothing, with `mkdir` able to create
the directory; or nothing, with `mkdir` raising `OSError`. -/
inductive ParentState where
  | isDir
  | isFile
  | missingCreatable
  | missingUncreatable

/-- The content of the cache path when it is a regular file. -/
def fileAt : PathState → Option Content
  | .file c => some c
  | _ => none

/-- Did the parent-directory handling create a directory? -/
def parentCreated : ParentState → Bool
  | .missingCreatable => true
  | _ => false

/-- One invocation's inputs: the parsed arguments, the filesystem state,
the current time (epoch microseconds), the local backup timestamp, whether the backup rename
raises, and the two network outcomes (`none` = the call raises an
exception of the kind the source handles at that call site). -/
structure Env where
  stageArn : String
  durationMinutes : Int
  capability : List String
  noSafetyMargin : Bool
  pathSt : PathState
  parentSt : ParentState
  now : Int
  backupTs : String
  tokenName : String
  renameFails : Bool
  issuance : Option (List (String × PyVal))
  sts : Option (List (String × PyVal))
  localOff : Int

/-- Observable outcome of a run that did not die with a traceback: the
exit code, how many network calls were attempted, how many `write_text`
calls were made, whether a directory was created, the final content at
the primary path, the backup file written (if any), the capability list
sent on a refresh, and the lines printed. -/
structure RunResult where
  exitCode : Nat
  networkCalls : Nat
  fileWrites : Nat
  dirCreated : Bool
  primary : Option Content
  backup : Option (String × Content)
  capsUsed : List String
  out : List OutLine

/-- The part of `main` from "Need a new token" on: default the
capabilities, call `create_participant_token`; on `BotoCoreError` /
`ClientError` print the error, the stage account and the best-effort
caller identity, append the mismatch hint when the looked-up account is
truthy and differs from the stage account, and exit 2; on success back up
the old file, write the new record and print the new token (an absent
`token` field in the response would raise `KeyError` at that last
print). -/
def refreshPath (env : Env) (pst : PathState) (created : Bool) (out0 : List OutLine)
    (stageAccount : String) (oldRaw : Option Content) : Except PyErr RunResult :=
  let caps := if env.capability.isEmpty then ["PUBLISH", "SUBSCRIBE"] else env.capability
  match env.issuance with
  | none =>
    let idres := try_print_caller_identity env.sts
    let hintLines :=
      match idres.1 with
      | some ident =>
        let acct := dictGet ident "Account"
        if !ident.isEmpty && pyTruthy acct && !pyEqStr acct stageAccount then
          [OutLine.hintAccountMismatch acct stageAccount]
        else []
      | none => []
    .ok ⟨2, 2, 0, created, fileAt pst, none, caps,
         out0 ++ [.creatingNew, .errIssuance, .debugStageAccount stageAccount, idres.2] ++ hintLines⟩
  | some pt =>
    let bres := backup_old_file (fileAt pst) oldRaw env.tokenName env.backupTs env.renameFails
    let newContent := write_new_token env.stageArn pt env.localOff
    match lookupKV pt "token" with
    | none => .error .keyError
    | some tok =>
      .ok ⟨0, 1, bres.2.2 + 1, created, some newContent, bres.2.1, caps,
           out0 ++ [.creatingNew, .newTokenWritten, .tokenLine tok]⟩

namespace RefreshTool

/-- Embedding of `main`: reject a directory at the token path; ensure the
parent directory (create it, or exit 1); extract the stage account from
the ARN (exit 1 on failure); range-check the duration (exit 1); load the
cache; on a decoded, truthy, still-valid record print the cached token and
exit 0 with no network call and no write; otherwise refresh. A `PyErr`
result is an uncaught Python exception: the interpreter dies with a
traceback (exit code 1 produced by the runtime, not by the program's own
error handling). -/
def main (env : Env) : Except PyErr RunResult :=
  match env.pathSt with
  | .dir => .ok ⟨1, 0, 0, false, none, none, [], [.errDirNotFile]⟩
  | pst =>
    match env.parentSt with
    | .missingUncreatable => .ok ⟨1, 0, 0, false, fileAt pst, none, [], [.errDirCreate]⟩
    | .isFile => .ok ⟨1, 0, 0, false, fileAt pst, none, [], [.errParentNotDir]⟩
    | ps =>
      let created := parentCreated ps
      let out0 : List OutLine := if created then [.createdDir] else []
      match extract_account_id_from_arn env.stageArn with
      | none => .ok ⟨1, 0, 0, created, fileAt pst, none, [], out0 ++ [.errBadArn env.stageArn]⟩
      | some stageAccount =>
        if env.durationMinutes < 1 ∨ 20160 < env.durationMinutes then
          .ok ⟨1, 0, 0, created, fileAt pst, none, [], out0 ++ [.errDuration]⟩
        else
          let safetyMargin : Int := if env.noSafetyMargin then 0 else 300
          match load_existing_token (fileAt pst) with
          | .error e => .error e
          | .ok (metaOpt, oldRaw) =>
            match metaOpt with
            | some meta =>
              if pyTruthy meta && is_token_valid meta env.now safetyMargin then
                match pyGetItem meta "token" with
                | .error e => .error e
                | .ok tok =>
                  .ok ⟨0, 0, 0, created, fileAt pst, none, [],
                       out0 ++ [.stillValid, .tokenLine tok]⟩
              else refreshPath env pst created out0 stageAccount oldRaw
            | none => refreshPath env pst created out0 stageAccount oldRaw

end RefreshTool

/-! ## Claim-side pattern predicates for the ArnInspector -/

/-- The language of the source's ARN regex, spelled out as the claims
describe it: the literal `arn`, a non-empty colon-free partition, a
non-empty colon-free service, a possibly empty colon-free region, the
captured 12-digit account segment, and a non-empty resource part free of
newlines (which may itself contain colons), optionally closed by one
final newline (the `$` anchor of the pattern). -/
def ArnShape (s : String) (acct : String) : Prop :=
  ∃ p sv r res tl : List Char,
    s.data = 'a' :: 'r' :: 'n' :: ':' ::
      (p ++ ':' :: (sv ++ ':' :: (r ++ ':' :: (acct.data ++ ':' :: (res ++ tl))))) ∧
    p ≠ [] ∧ ':' ∉ p ∧ sv ≠ [] ∧ ':' ∉ sv ∧ ':' ∉ r ∧
    acct.data.length = 12 ∧ (∀ c ∈ acct.data, isPyDigit c = true) ∧
    res ≠ [] ∧ '\n' ∉ res ∧ (tl = [] ∨ tl = ['\n'])

/-- The first colon-delimited segment of a string (the whole string when
it holds no colon). -/
def firstSegment (s : String) : List Char :=
  s.data.takeWhile (fun c => c != ':')

/-! ## Helper lemmas: calendar arithmetic, the isoformat round trip,
and the ARN matcher characterization -/

theorem digitChar_props : ∀ k < 10, (Nat.digitChar k).isDigit = true ∧ (Nat.digitChar k).toNat = 48 + k := by
  decide

theorem yearPart (doe : Nat) (h : doe ≤ 146096) :
    let n100 := (4 * doe + 3) / 146097
    let r100 := doe - 36524 * n100
    let n4 := r100 / 1461
    let r4 := r100 % 1461
    let n1 := (4 * r4 + 3) / 1461
    let doy := r4 - 365 * n1
    let yoe := 100 * n100 + 4 * n4 + n1
    yoe ≤ 399 ∧ doy ≤ 365 ∧
      365 * yoe + yoe / 4 - yoe / 100 + doy = doe := by
  intro n100 r100 n4 r4 n1 doy yoe
  have ha : n100 ≤ 3 := by omega
  have h0 : 36524 * n100 ≤ doe := by omega
  have h1 : r100 ≤ 36524 := by omega
  have hb : n4 ≤ 24 := by omega
  have hr4 : r4 ≤ 1460 := by omega
  have hc : n1 ≤ 3 := by omega
  have h2 : 365 * n1 ≤ r4 := by omega
  have h3 : doy ≤ 365 := by omega
  have hd : yoe / 4 = 25 * n100 + n4 := by omega
  have he : yoe / 100 = n100 := by omega
  refine ⟨by omega, h3, ?_⟩
  rw [hd, he]
  omega

theorem monthPart (doy : Nat) (h : doy ≤ 365) :
    let mp := (5 * doy + 2) / 153
    mp ≤ 11 ∧ (153 * mp + 2) / 5 ≤ doy ∧ doy ≤ (153 * mp + 2) / 5 + 30 := by
  intro mp
  refine ⟨by omega, by omega, by omega⟩

theorem civilAssembly (z y m d era yoe doy mp : Nat)
    (hmp : mp = (5 * doy + 2) / 153)
    (hm : m = if mp < 10 then mp + 3 else mp - 9)
    (hy : y = yoe + era * 400 + (if m ≤ 2 then 1 else 0))
    (hd : d = doy - (153 * mp + 2) / 5 + 1)
    (hyoe : yoe ≤ 399) (hdoy : doy ≤ 365)
    (hsum : 365 * yoe + yoe / 4 - yoe / 100 + doy + 146097 * era = z)
    (h1 : 306 ≤ z) (h2 : z ≤ 3652364) :
    1 ≤ y ∧ y ≤ 9999 ∧ 1 ≤ m ∧ m ≤ 12 ∧ 1 ≤ d ∧ d ≤ 31 ∧
      daysFromCivil y m d = z := by
  obtain ⟨hmpb, hs1, hs2⟩ := monthPart doy hdoy
  rw [← hmp] at hmpb hs1 hs2
  have hera : era ≤ 24 := by omega
  have h400a : (yoe + era * 400) / 400 = era := by omega
  have h400b : (yoe + era * 400) % 400 = yoe := by omega
  by_cases hc : mp < 10
  · have hm' : m = mp + 3 := by rw [hm, if_pos hc]
    subst hm'
    have h0 : (if mp + 3 ≤ 2 then (1 : Nat) else 0) = 0 := if_neg (by omega)
    rw [h0] at hy
    have hy' : y = yoe + era * 400 := by omega
    subst hy'
    refine ⟨by omega, by omega, by omega, by omega, by omega, by omega, ?_⟩
    simp only [daysFromCivil]
    rw [if_neg (by omega : ¬ (mp + 3 ≤ 2)), if_pos (by omega : 2 < mp + 3),
        Nat.add_sub_cancel, h400a, h400b]
    omega
  · have hm' : m = mp - 9 := by rw [hm, if_neg hc]
    subst hm'
    have h0 : (if mp - 9 ≤ 2 then (1 : Nat) else 0) = 1 := if_pos (by omega)
    rw [h0] at hy
    subst hy
    refine ⟨by omega, by omega, by omega, by omega, by omega, by omega, ?_⟩
    simp only [daysFromCivil]
    rw [if_pos (by omega : mp - 9 ≤ 2), if_neg (by omega : ¬ (2 < mp - 9)),
        Nat.add_sub_cancel, Nat.sub_add_cancel (by omega : 9 ≤ mp), h400a, h400b]
    omega

theorem civil_inverse (z : Nat) (h1 : 306 ≤ z) (h2 : z ≤ 3652364) :
    1 ≤ (civilFromDays z).1 ∧ (civilFromDays z).1 ≤ 9999 ∧
    1 ≤ (civilFromDays z).2.1 ∧ (civilFromDays z).2.1 ≤ 12 ∧
    1 ≤ (civilFromDays z).2.2 ∧ (civilFromDays z).2.2 ≤ 31 ∧
    daysFromCivil (civilFromDays z).1 (civilFromDays z).2.1 (civilFromDays z).2.2 = z := by
  have hdoe : z % 146097 ≤ 146096 := by omega
  obtain ⟨hyoe, hdoy, hsum⟩ := yearPart (z % 146097) hdoe
  refine civilAssembly z _ _ _ (z / 146097) _ _ _ rfl rfl rfl rfl hyoe hdoy (by omega) h1 h2

theorem febPart (doe : Nat) (h : doe ≤ 146096) :
    let n100 := (4 * doe + 3) / 146097
    let r100 := doe - 36524 * n100
    let n4 := r100 / 1461
    let r4 := r100 % 1461
    let n1 := (4 * r4 + 3) / 1461
    let doy := r4 - 365 * n1
    let yoe := 100 * n100 + 4 * n4 + n1
    doy = 365 → (yoe + 1) % 4 = 0 ∧ ((yoe + 1) % 100 = 0 → yoe + 1 = 400) := by
  intro n100 r100 n4 r4 n1 doy yoe hdoy
  have ha : n100 ≤ 3 := by omega
  have h0 : 36524 * n100 ≤ doe := by omega
  have h1 : r100 ≤ 36524 := by omega
  have hb : n4 ≤ 24 := by omega
  have hr4 : r4 ≤ 1460 := by omega
  have hc : n1 ≤ 3 := by omega
  have h2 : 365 * n1 ≤ r4 := by omega
  have hkey : r4 = 1460 ∧ n1 = 3 := by omega
  constructor
  · omega
  · intro hcent
    have hn4 : n4 = 24 := by omega
    have hr100 : r100 = 36524 := by omega
    omega

theorem dayAssembly (y m d era yoe doy mp : Nat)
    (hmp : mp = (5 * doy + 2) / 153)
    (hm : m = if mp < 10 then mp + 3 else mp - 9)
    (hy : y = yoe + era * 400 + (if m ≤ 2 then 1 else 0))
    (hd : d = doy - (153 * mp + 2) / 5 + 1)
    (hdoy : doy ≤ 365)
    (hleap : doy = 365 → (yoe + 1) % 4 = 0 ∧ ((yoe + 1) % 100 = 0 → yoe + 1 = 400)) :
    d ≤ daysInMonth y m := by
  have hmpb : mp ≤ 11 := by omega
  by_cases hc : mp < 10
  · have hm' : m = mp + 3 := by rw [hm, if_pos hc]
    simp only [daysInMonth]
    rw [if_neg (by omega : ¬ m = 2)]
    by_cases h30 : m = 4 ∨ m = 6 ∨ m = 9 ∨ m = 11
    · rw [if_pos h30]; omega
    · rw [if_neg h30]; omega
  · have hm' : m = mp - 9 := by rw [hm, if_neg hc]
    by_cases hfeb : mp = 11
    · have hm2 : m = 2 := by omega
      have hy' : y = yoe + era * 400 + 1 := by rw [hy, if_pos (by omega)]
      simp only [daysInMonth]
      rw [if_pos hm2]
      by_cases hdy : doy = 365
      · obtain ⟨hl4, hl100⟩ := hleap hdy
        have hleapy : isLeapYear y = true := by
          simp only [isLeapYear, Bool.and_eq_true, beq_iff_eq, Bool.or_eq_true, bne_iff_ne]
          omega
        rw [if_pos hleapy]
        omega
      · by_cases hl : isLeapYear y = true
        · rw [if_pos hl]; omega
        · rw [if_neg hl]; omega
    · have hm1 : m = 1 := by omega
      simp only [daysInMonth]
      rw [if_neg (by omega : ¬ m = 2), if_neg (by omega : ¬ (m = 4 ∨ m = 6 ∨ m = 9 ∨ m = 11))]
      omega

theorem civil_day_valid (z : Nat) :
    (civilFromDays z).2.2 ≤ daysInMonth (civilFromDays z).1 (civilFromDays z).2.1 := by
  have hdoe : z % 146097 ≤ 146096 := by omega
  obtain ⟨hyoe, hdoy, hsum⟩ := yearPart (z % 146097) hdoe
  have hleap := febPart (z % 146097) hdoe
  exact dayAssembly _ _ _ (z / 146097) _ _ _ rfl rfl rfl rfl hdoy hleap

theorem digitChar_ascii (n : Nat) : (Nat.digitChar (n % 10)).toNat < 128 := by
  obtain ⟨-, h⟩ := digitChar_props (n % 10) (Nat.mod_lt _ (by omega))
  omega

theorem saniAt_ascii (l : List Char) (i : Nat) (h : ∀ c ∈ l, c.toNat < 128) :
    saniAt l i = l := by
  cases hg : l[i]? with
  | none => simp only [saniAt, hg]
  | some c =>
    have hc : c ∈ l := List.getElem?_mem hg
    simp only [saniAt, hg]
    rw [if_neg (by have := h c hc; omega)]

theorem sanitizeSep_ascii (l : List Char) (h : ∀ c ∈ l, c.toNat < 128) :
    sanitizeSep l = l := by
  unfold sanitizeSep
  rw [saniAt_ascii l 7 h, saniAt_ascii l 8 h, saniAt_ascii l 10 h]

theorem encodeUtf8_ascii (l : List Char) (h : ∀ c ∈ l, c.toNat < 128) :
    encodeUtf8 l = l.map Char.toNat := by
  induction l with
  | nil => rfl
  | cons c t ih =>
    have hc : c.toNat < 128 := h c (List.mem_cons_self c t)
    simp only [encodeUtf8, utf8Bytes, if_pos hc, List.map_cons, List.cons_append,
      List.nil_append]
    rw [ih (fun x hx => h x (List.mem_cons_of_mem c hx))]

theorem map_pad2 (n : Nat) :
    (pad2 n).map Char.toNat = [48 + n / 10 % 10, 48 + n % 10] := by
  obtain ⟨-, h1⟩ := digitChar_props (n / 10 % 10) (Nat.mod_lt _ (by omega))
  obtain ⟨-, h2⟩ := digitChar_props (n % 10) (Nat.mod_lt _ (by omega))
  simp [pad2, h1, h2]

theorem map_pad4 (n : Nat) :
    (pad4 n).map Char.toNat =
      [48 + n / 1000 % 10, 48 + n / 100 % 10, 48 + n / 10 % 10, 48 + n % 10] := by
  obtain ⟨-, h1⟩ := digitChar_props (n / 1000 % 10) (Nat.mod_lt _ (by omega))
  obtain ⟨-, h2⟩ := digitChar_props (n / 100 % 10) (Nat.mod_lt _ (by omega))
  obtain ⟨-, h3⟩ := digitChar_props (n / 10 % 10) (Nat.mod_lt _ (by omega))
  obtain ⟨-, h4⟩ := digitChar_props (n % 10) (Nat.mod_lt _ (by omega))
  simp [pad4, h1, h2, h3, h4]

theorem map_pad6 (n : Nat) :
    (pad6 n).map Char.toNat =
      [48 + n / 100000 % 10, 48 + n / 10000 % 10, 48 + n / 1000 % 10,
       48 + n / 100 % 10, 48 + n / 10 % 10, 48 + n % 10] := by
  obtain ⟨-, h1⟩ := digitChar_props (n / 100000 % 10) (Nat.mod_lt _ (by omega))
  obtain ⟨-, h2⟩ := digitChar_props (n / 10000 % 10) (Nat.mod_lt _ (by omega))
  obtain ⟨-, h3⟩ := digitChar_props (n / 1000 % 10) (Nat.mod_lt _ (by omega))
  obtain ⟨-, h4⟩ := digitChar_props (n / 100 % 10) (Nat.mod_lt _ (by omega))
  obtain ⟨-, h5⟩ := digitChar_props (n / 10 % 10) (Nat.mod_lt _ (by omega))
  obtain ⟨-, h6⟩ := digitChar_props (n % 10) (Nat.mod_lt _ (by omega))
  simp [pad6, h1, h2, h3, h4, h5, h6]

theorem isDigitB_true (b : Nat) (h1 : 48 ≤ b) (h2 : b ≤ 57) : isDigitB b = true := by
  simp only [isDigitB, Bool.and_eq_true, decide_eq_true_eq]
  omega

theorem read2b_digits (n : Nat) (h : n ≤ 99) (r : List Nat) :
    read2b ((48 + n / 10 % 10) :: (48 + n % 10) :: r) = some (n, r) := by
  simp only [read2b, isDigitB_true (48 + n / 10 % 10) (by omega) (by omega),
    isDigitB_true (48 + n % 10) (by omega) (by omega), Bool.and_self, if_true,
    Option.some.injEq, Prod.mk.injEq]
  exact ⟨by omega, trivial⟩

theorem read4b_digits (n : Nat) (h : n ≤ 9999) (r : List Nat) :
    read4b ((48 + n / 1000 % 10) :: (48 + n / 100 % 10) :: (48 + n / 10 % 10) :: (48 + n % 10) :: r)
      = some (n, r) := by
  simp only [read4b, isDigitB_true (48 + n / 1000 % 10) (by omega) (by omega),
    isDigitB_true (48 + n / 100 % 10) (by omega) (by omega),
    isDigitB_true (48 + n / 10 % 10) (by omega) (by omega),
    isDigitB_true (48 + n % 10) (by omega) (by omega), Bool.and_self, if_true,
    Option.some.injEq, Prod.mk.injEq]
  exact ⟨by omega, trivial⟩

theorem readNb6_digits (n : Nat) (h : n ≤ 999999) (r : List Nat) :
    readNb 6 ((48 + n / 100000 % 10) :: (48 + n / 10000 % 10) :: (48 + n / 1000 % 10) ::
      (48 + n / 100 % 10) :: (48 + n / 10 % 10) :: (48 + n % 10) :: r) = some (n, r) := by
  simp only [readNb, isDigitB_true (48 + n / 100000 % 10) (by omega) (by omega),
    isDigitB_true (48 + n / 10000 % 10) (by omega) (by omega),
    isDigitB_true (48 + n / 1000 % 10) (by omega) (by omega),
    isDigitB_true (48 + n / 100 % 10) (by omega) (by omega),
    isDigitB_true (48 + n / 10 % 10) (by omega) (by omega),
    isDigitB_true (48 + n % 10) (by omega) (by omega), if_true,
    Nat.reducePow, Option.some.injEq, Prod.mk.injEq]
  exact ⟨by omega, trivial⟩

theorem notSign_mid (b : Nat) (h1 : 44 ≤ b) (h2 : b ≤ 58) (h3 : b ≠ 45) :
    (!isSignB b) = true := by
  simp only [isSignB, Bool.not_eq_true', Bool.or_eq_false_iff, beq_eq_false_iff_ne, ne_eq]
  omega

theorem parseIsoDate_canon (y mo dy : Nat) (hy : y ≤ 9999) (hmo : mo ≤ 99) (hdy : dy ≤ 99) :
    parseIsoDate ((48 + y / 1000 % 10) :: (48 + y / 100 % 10) :: (48 + y / 10 % 10) ::
      (48 + y % 10) :: 45 :: (48 + mo / 10 % 10) :: (48 + mo % 10) :: 45 ::
      (48 + dy / 10 % 10) :: (48 + dy % 10) :: []) = some (y, mo, dy) := by
  simp only [parseIsoDate, read4b_digits y hy, read2b_digits mo hmo, read2b_digits dy hdy,
    nthByte, beq_self_eq_true, if_true, List.drop_succ_cons, List.drop_zero,
    show ((48 + mo / 10 % 10 : Nat) == 87) = false from beq_eq_false_iff_ne.mpr (by omega),
    Bool.false_eq_true, if_false, bne_self_eq_false, List.isEmpty_nil]

theorem parseFracB_exact (n : Nat) (h : n ≤ 999999) :
    parseFracB ((48 + n / 100000 % 10) :: (48 + n / 10000 % 10) :: (48 + n / 1000 % 10) ::
      (48 + n / 100 % 10) :: (48 + n / 10 % 10) :: (48 + n % 10) :: []) = some (n, true) := by
  simp only [parseFracB,
    show ((48 + n / 100000 % 10) :: (48 + n / 10000 % 10) :: (48 + n / 1000 % 10) ::
      (48 + n / 100 % 10) :: (48 + n / 10 % 10) :: (48 + n % 10) :: ([] : List Nat)).length = 6
      from rfl,
    Nat.min_self, readNb6_digits n h, fracTail, Nat.sub_self, pow_zero, mul_one]

theorem parseHMSF_canon (hh mi ss us : Nat)
    (hhh : hh ≤ 99) (hmi : mi ≤ 99) (hss : ss ≤ 99) (hus : us ≤ 999999) :
    parseHMSF ((48 + hh / 10 % 10) :: (48 + hh % 10) :: 58 :: (48 + mi / 10 % 10) ::
      (48 + mi % 10) :: 58 :: (48 + ss / 10 % 10) :: (48 + ss % 10) ::
      (if us = 0 then ([] : List Nat)
       else 46 :: (48 + us / 100000 % 10) :: (48 + us / 10000 % 10) :: (48 + us / 1000 % 10) ::
         (48 + us / 100 % 10) :: (48 + us / 10 % 10) :: (48 + us % 10) :: [])) 43
      = some ((hh, mi, ss, us), us != 0) := by
  by_cases hu : us = 0
  · rw [if_pos hu]
    subst hu
    simp only [parseHMSF, read2b_digits hh hhh, read2b_digits mi hmi, read2b_digits ss hss,
      beq_self_eq_true, show ((58 : Nat) == 46) = false from rfl,
      show ((58 : Nat) == 44) = false from rfl, show ((43 : Nat) == 0) = false from rfl,
      Bool.or_self, Bool.false_eq_true, if_false, Bool.and_self, if_true,
      bne_self_eq_false]
  · rw [if_neg hu]
    simp only [parseHMSF, read2b_digits hh hhh, read2b_digits mi hmi, read2b_digits ss hss,
      beq_self_eq_true, show ((58 : Nat) == 46) = false from rfl,
      show ((58 : Nat) == 44) = false from rfl,
      show ((46 : Nat) == 58) = false from rfl, show ((46 : Nat) == 46) = true from rfl,
      Bool.or_self, Bool.false_or, Bool.true_or, Bool.false_eq_true, if_false,
      Bool.and_self, if_true, parseFracB_exact us hus,
      show (us != 0) = true from bne_iff_ne.mpr hu]

theorem parseIsoTime_canon (hh mi ss us : Nat)
    (hhh : hh ≤ 99) (hmi : mi ≤ 99) (hss : ss ≤ 99) (hus : us ≤ 999999) :
    parseIsoTime ((48 + hh / 10 % 10) :: (48 + hh % 10) :: 58 :: (48 + mi / 10 % 10) ::
      (48 + mi % 10) :: 58 :: (48 + ss / 10 % 10) :: (48 + ss % 10) ::
      ((if us = 0 then ([] : List Nat)
        else 46 :: (48 + us / 100000 % 10) :: (48 + us / 10000 % 10) :: (48 + us / 1000 % 10) ::
          (48 + us / 100 % 10) :: (48 + us / 10 % 10) :: (48 + us % 10) :: []) ++
        (43 :: 48 :: 48 :: 58 :: 48 :: 48 :: []))) = some ((hh, mi, ss, us), some 0) := by
  have nd1 := notSign_mid (48 + hh / 10 % 10) (by omega) (by omega) (by omega)
  have nd2 := notSign_mid (48 + hh % 10) (by omega) (by omega) (by omega)
  have nd3 := notSign_mid (48 + mi / 10 % 10) (by omega) (by omega) (by omega)
  have nd4 := notSign_mid (48 + mi % 10) (by omega) (by omega) (by omega)
  have nd5 := notSign_mid (48 + ss / 10 % 10) (by omega) (by omega) (by omega)
  have nd6 := notSign_mid (48 + ss % 10) (by omega) (by omega) (by omega)
  have ncol := notSign_mid 58 (by omega) (by omega) (by omega)
  have hplus : (!isSignB 43) = false := rfl
  have hsplit : ∀ F : List Nat, (∀ b ∈ F, (!isSignB b) = true) →
      ((48 + hh / 10 % 10) :: (48 + hh % 10) :: 58 :: (48 + mi / 10 % 10) ::
        (48 + mi % 10) :: 58 :: (48 + ss / 10 % 10) :: (48 + ss % 10) ::
        (F ++ (43 :: 48 :: 48 :: 58 :: 48 :: 48 :: []))).takeWhile (fun b => !isSignB b)
        = (48 + hh / 10 % 10) :: (48 + hh % 10) :: 58 :: (48 + mi / 10 % 10) ::
          (48 + mi % 10) :: 58 :: (48 + ss / 10 % 10) :: (48 + ss % 10) :: F ∧
      ((48 + hh / 10 % 10) :: (48 + hh % 10) :: 58 :: (48 + mi / 10 % 10) ::
        (48 + mi % 10) :: 58 :: (48 + ss / 10 % 10) :: (48 + ss % 10) ::
        (F ++ (43 :: 48 :: 48 :: 58 :: 48 :: 48 :: []))).dropWhile (fun b => !isSignB b)
        = 43 :: 48 :: 48 :: 58 :: 48 :: 48 :: [] := by
    intro F hF
    have htk : ∀ G : List Nat, (∀ b ∈ G, (!isSignB b) = true) →
        (G ++ (43 :: 48 :: 48 :: 58 :: 48 :: 48 :: [])).takeWhile (fun b => !isSignB b) = G ∧
        (G ++ (43 :: 48 :: 48 :: 58 :: 48 :: 48 :: [])).dropWhile (fun b => !isSignB b)
          = 43 :: 48 :: 48 :: 58 :: 48 :: 48 :: [] := by
      intro G hG
      induction G with
      | nil => exact ⟨by rw [List.nil_append, List.takeWhile_cons, hplus]; simp,
                     by rw [List.nil_append, List.dropWhile_cons, hplus]; simp⟩
      | cons g gt ih =>
        have hg := hG g (List.mem_cons_self g gt)
        obtain ⟨ih1, ih2⟩ := ih (fun b hb => hG b (List.mem_cons_of_mem g hb))
        constructor
        · rw [List.cons_append, List.takeWhile_cons, hg, if_pos rfl, ih1]
        · rw [List.cons_append, List.dropWhile_cons, hg, if_pos rfl, ih2]
    have hall : ∀ b ∈ (48 + hh / 10 % 10) :: (48 + hh % 10) :: 58 :: (48 + mi / 10 % 10) ::
        (48 + mi % 10) :: 58 :: (48 + ss / 10 % 10) :: (48 + ss % 10) :: F,
        (!isSignB b) = true := by
      intro b hb
      simp only [List.mem_cons] at hb
      rcases hb with h | h | h | h | h | h | h | h | h
      · exact h ▸ nd1
      · exact h ▸ nd2
      · exact h ▸ ncol
      · exact h ▸ nd3
      · exact h ▸ nd4
      · exact h ▸ ncol
      · exact h ▸ nd5
      · exact h ▸ nd6
      · exact hF b h
    have := htk _ hall
    simpa using this
  have hF : ∀ b ∈ (if us = 0 then ([] : List Nat)
      else 46 :: (48 + us / 100000 % 10) :: (48 + us / 10000 % 10) :: (48 + us / 1000 % 10) ::
        (48 + us / 100 % 10) :: (48 + us / 10 % 10) :: (48 + us % 10) :: []),
      (!isSignB b) = true := by
    by_cases hu : us = 0
    · rw [if_pos hu]; intro b hb; cases hb
    · rw [if_neg hu]
      intro b hb
      simp only [List.mem_cons] at hb
      rcases hb with h | h | h | h | h | h | h | h
      · exact h ▸ notSign_mid 46 (by omega) (by omega) (by omega)
      · exact h ▸ notSign_mid (48 + us / 100000 % 10) (by omega) (by omega) (by omega)
      · exact h ▸ notSign_mid (48 + us / 10000 % 10) (by omega) (by omega) (by omega)
      · exact h ▸ notSign_mid (48 + us / 1000 % 10) (by omega) (by omega) (by omega)
      · exact h ▸ notSign_mid (48 + us / 100 % 10) (by omega) (by omega) (by omega)
      · exact h ▸ notSign_mid (48 + us / 10 % 10) (by omega) (by omega) (by omega)
      · exact h ▸ notSign_mid (48 + us % 10) (by omega) (by omega) (by omega)
      · cases h
  obtain ⟨htw, hdw⟩ := hsplit _ hF
  simp only [parseIsoTime, htw, hdw,
    show parseHMSF (48 :: 48 :: 58 :: 48 :: 48 :: []) 0 = some ((0, 0, 0, 0), true) from rfl,
    show ¬((43 : Nat) = 90) from by omega, if_false, if_true, if_pos rfl]
  rw [parseHMSF_canon hh mi ss us hhh hmi hss hus]
  simp only [if_pos (show -86400000000 < (0 : Int) ∧ (0 : Int) < 86400000000 from by decide)]


theorem pad2_ascii (n : Nat) : ∀ c ∈ pad2 n, c.toNat < 128 := by
  intro c hc
  simp only [pad2, List.mem_cons, List.not_mem_nil, or_false] at hc
  rcases hc with h | h <;> exact h ▸ digitChar_ascii _

theorem pad4_ascii (n : Nat) : ∀ c ∈ pad4 n, c.toNat < 128 := by
  intro c hc
  simp only [pad4, List.mem_cons, List.not_mem_nil, or_false] at hc
  rcases hc with h | h | h | h <;> exact h ▸ digitChar_ascii _

theorem pad6_ascii (n : Nat) : ∀ c ∈ pad6 n, c.toNat < 128 := by
  intro c hc
  simp only [pad6, List.mem_cons, List.not_mem_nil, or_false] at hc
  rcases hc with h | h | h | h | h | h <;> exact h ▸ digitChar_ascii _

theorem iso_ascii (y mo dy hh mi ss us : Nat) :
    ∀ c ∈ pad4 y ++ ('-' :: (pad2 mo ++ ('-' :: (pad2 dy ++ ('T' :: (pad2 hh ++ (':' :: (pad2 mi ++ (':' :: (pad2 ss ++ ((if us = 0 then [] else '.' :: pad6 us) ++ ['+', '0', '0', ':', '0', '0']))))))))))),
      c.toNat < 128 := by
  refine List.forall_mem_append.mpr ⟨pad4_ascii y, List.forall_mem_cons.mpr ⟨by decide, ?_⟩⟩
  refine List.forall_mem_append.mpr ⟨pad2_ascii mo, List.forall_mem_cons.mpr ⟨by decide, ?_⟩⟩
  refine List.forall_mem_append.mpr ⟨pad2_ascii dy, List.forall_mem_cons.mpr ⟨by decide, ?_⟩⟩
  refine List.forall_mem_append.mpr ⟨pad2_ascii hh, List.forall_mem_cons.mpr ⟨by decide, ?_⟩⟩
  refine List.forall_mem_append.mpr ⟨pad2_ascii mi, List.forall_mem_cons.mpr ⟨by decide, ?_⟩⟩
  refine List.forall_mem_append.mpr ⟨pad2_ascii ss, List.forall_mem_append.mpr ⟨?_, by decide⟩⟩
  by_cases hu : us = 0
  · rw [if_pos hu]
    intro c hc
    cases hc
  · rw [if_neg hu]
    exact List.forall_mem_cons.mpr ⟨by decide, pad6_ascii us⟩

theorem findSep_canon (y mo dy : Nat) (T : List Nat) (hT : 14 ≤ T.length) :
    findSep ((48 + y / 1000 % 10) :: (48 + y / 100 % 10) :: (48 + y / 10 % 10) ::
      (48 + y % 10) :: 45 :: (48 + mo / 10 % 10) :: (48 + mo % 10) :: 45 ::
      (48 + dy / 10 % 10) :: (48 + dy % 10) :: T) = some 10 := by
  simp only [findSep, nthByte]
  rw [if_neg (by simp only [List.length_cons]; omega)]
  rw [if_true, if_neg (by omega : ¬ (48 + mo / 10 % 10) = 87)]

theorem pad2_len (n : Nat) : (pad2 n).length = 2 := rfl

theorem pad4_len (n : Nat) : (pad4 n).length = 4 := rfl

theorem pad6_len (n : Nat) : (pad6 n).length = 6 := rfl

set_option maxHeartbeats 1000000 in
theorem fromiso_iso (t : Int) (hlo : -62135596800000000 ≤ t)
    (hhi : t ≤ 253402300799999999) :
    fromisoformat (isoformatAwareUTC t) = some ⟨t, some 0⟩ := by
  have hnn : (0 : Int) ≤ t + 62135596800000000 := by omega
  simp only [isoformatAwareUTC]
  generalize hN : (t + (62135596800000000 : Int)).toNat = n
  have hnval : (n : Int) = t + 62135596800000000 := by
    rw [← hN]; exact Int.toNat_of_nonneg hnn
  have hnb : n ≤ 315537897599999999 := by omega
  obtain ⟨hy1, hy2, hm1, hm2, hd1, hd2, hrt⟩ :=
    civil_inverse (n / 1000000 / 86400 + 306) (by omega) (by omega)
  have hdv := civil_day_valid (n / 1000000 / 86400 + 306)
  have hascii := iso_ascii (civilFromDays (n / 1000000 / 86400 + 306)).1
    (civilFromDays (n / 1000000 / 86400 + 306)).2.1
    (civilFromDays (n / 1000000 / 86400 + 306)).2.2
    (n / 1000000 % 86400 / 3600) (n / 1000000 % 86400 % 3600 / 60)
    (n / 1000000 % 86400 % 60) (n % 1000000)
  simp only [fromisoformat]
  rw [if_neg (by
    by_cases hu : n % 1000000 = 0 <;>
      simp only [hu, if_pos, if_neg, if_true, if_false, eq_self_iff_true, List.length_append,
        List.length_cons, pad2_len, pad4_len, pad6_len, not_lt] <;>
      omega)]
  rw [sanitizeSep_ascii _ hascii, encodeUtf8_ascii _ hascii]
  simp only [List.map_append, List.map_cons, List.map_nil, map_pad2, map_pad4, map_pad6,
    apply_ite (List.map Char.toNat),
    show ('-').toNat = 45 from rfl, show ('T').toNat = 84 from rfl,
    show (':').toNat = 58 from rfl, show ('.').toNat = 46 from rfl,
    show ('+').toNat = 43 from rfl, show ('0').toNat = 48 from rfl,
    List.cons_append, List.nil_append]
  rw [findSep_canon (civilFromDays (n / 1000000 / 86400 + 306)).1
    (civilFromDays (n / 1000000 / 86400 + 306)).2.1
    (civilFromDays (n / 1000000 / 86400 + 306)).2.2 _ (by
      by_cases hu : n % 1000000 = 0 <;>
        simp only [hu, if_pos, if_neg, if_true, if_false, eq_self_iff_true, List.length_append,
          List.length_cons, List.length_nil] <;>
        omega)]
  simp only [List.take_succ_cons, List.take_zero, List.drop_succ_cons, List.drop_zero,
    parseIsoDate_canon (civilFromDays (n / 1000000 / 86400 + 306)).1
      (civilFromDays (n / 1000000 / 86400 + 306)).2.1
      (civilFromDays (n / 1000000 / 86400 + 306)).2.2 hy2 (by omega) (by omega)]
  rw [if_pos (by
    by_cases hu : n % 1000000 = 0 <;>
      simp only [hu, if_pos, if_neg, if_true, if_false, eq_self_iff_true, List.length_append,
        List.length_cons, List.length_nil] <;>
      omega)]
  simp only [parseIsoTime_canon (n / 1000000 % 86400 / 3600) (n / 1000000 % 86400 % 3600 / 60)
    (n / 1000000 % 86400 % 60) (n % 1000000) (by omega) (by omega) (by omega) (by omega)]
  rw [if_pos ⟨hy1, hy2, hm1, hm2, hd1, hdv, by omega, by omega, by omega⟩]
  simp only [Option.some.injEq, PyDateTime.mk.injEq]
  refine ⟨?_, trivial⟩
  simp only [fieldsToEpoch, hrt, epochBias]
  omega

/-- A colon-free prefix followed by a colon is consumed exactly by `takeSeg`. -/
theorem takeSeg_complete (seg : List Char) (h : ':' ∉ seg) (rest : List Char) :
    takeSeg (seg ++ ':' :: rest) = some (seg, rest) := by
  induction seg with
  | nil => simp [takeSeg]
  | cons c t ih =>
    have hc : c ≠ ':' := fun hx => h (hx ▸ List.mem_cons_self c t)
    have ht : ':' ∉ t := fun hx => h (List.mem_cons_of_mem c hx)
    simp [takeSeg, hc, ih ht]

/-- Whatever `takeSeg` returns decomposes its input at the first colon. -/
theorem takeSeg_sound (l : List Char) : ∀ seg rest : List Char,
    takeSeg l = some (seg, rest) → l = seg ++ ':' :: rest ∧ ':' ∉ seg := by
  induction l with
  | nil => intro seg rest h; simp [takeSeg] at h
  | cons c t ih =>
    intro seg rest h
    simp only [takeSeg] at h
    by_cases hc : c = ':'
    · rw [if_pos hc] at h
      rw [Option.some.injEq, Prod.mk.injEq] at h
      obtain ⟨h1, h2⟩ := h
      subst h1; subst h2; subst hc
      exact ⟨rfl, by simp⟩
    · rw [if_neg hc] at h
      cases htk : takeSeg t with
      | none => rw [htk] at h; simp at h
      | some pr =>
        rw [htk] at h
        rw [Option.some.injEq] at h
        obtain ⟨hl, hn⟩ := ih pr.1 pr.2 (by rw [htk])
        have hseg : seg = c :: pr.1 := by
          have := congrArg Prod.fst h; simpa using this.symm
        have hrest : rest = pr.2 := by
          have := congrArg Prod.snd h; simpa using this.symm
        subst hseg; subst hrest
        refine ⟨by rw [hl]; rfl, ?_⟩
        intro hx
        rcases List.mem_cons.mp hx with h1 | h2
        · exact hc h1.symm
        · exact hn h2

/-- Splitting a list at a colon after a colon-free prefix is unique. -/
theorem colon_split_unique (a b x y : List Char) (ha : ':' ∉ a) (hb : ':' ∉ b)
    (h : a ++ ':' :: x = b ++ ':' :: y) : a = b ∧ x = y := by
  have h1 := takeSeg_complete a ha x
  have h2 := takeSeg_complete b hb y
  rw [h, h2, Option.some.injEq, Prod.mk.injEq] at h1
  exact ⟨h1.1.symm, h1.2.symm⟩

/-- Characterization of the continuation after a `.+` body: no newline at
all, or exactly one final newline. -/
theorem tailOk_iff (l : List Char) :
    tailOk l = true ↔ ('\n' ∉ l ∨ ∃ b, l = b ++ ['\n'] ∧ '\n' ∉ b) := by
  induction l with
  | nil => simp [tailOk]
  | cons c rest ih =>
    simp only [tailOk]
    by_cases hc : c = '\n'
    · subst hc
      rw [if_pos rfl]
      constructor
      · intro h
        have hre : rest = [] := by simpa using h
        subst hre
        exact Or.inr ⟨[], rfl, by simp⟩
      · rintro (h | ⟨b, hb, hbn⟩)
        · exact absurd (List.mem_cons_self _ _) h
        · cases b with
          | nil =>
            injection hb with _ h2
            subst h2
            rfl
          | cons bh bt =>
            injection hb with h1 _
            exact absurd (List.mem_cons.mpr (Or.inl h1)) hbn
    · rw [if_neg hc, ih]
      constructor
      · rintro (h | ⟨b, hb, hbn⟩)
        · refine Or.inl fun hx => ?_
          rcases List.mem_cons.mp hx with h1 | h2
          · exact hc h1.symm
          · exact h h2
        · refine Or.inr ⟨c :: b, by rw [hb, List.cons_append], fun hx => ?_⟩
          rcases List.mem_cons.mp hx with h1 | h2
          · exact hc h1.symm
          · exact hbn h2
      · rintro (h | ⟨b, hb, hbn⟩)
        · exact Or.inl fun hx => h (List.mem_cons_of_mem _ hx)
        · cases b with
          | nil =>
            injection hb with h1 _
            exact absurd h1 hc
          | cons bh bt =>
            rw [List.cons_append] at hb
            injection hb with _ h2
            exact Or.inr ⟨bt, h2, fun hx => hbn (List.mem_cons_of_mem _ hx)⟩

/-- Characterization of `.+$`: a non-empty newline-free body optionally
followed by one final newline. -/
theorem restOk_iff (l : List Char) :
    restOk l = true ↔
      ∃ body tl, l = body ++ tl ∧ body ≠ [] ∧ '\n' ∉ body ∧ (tl = [] ∨ tl = ['\n']) := by
  cases l with
  | nil =>
    simp only [restOk, Bool.false_eq_true, false_iff]
    rintro ⟨body, tl, hl, hbne, _, _⟩
    exact hbne (List.append_eq_nil.mp hl.symm).1
  | cons c rest =>
    rw [show restOk (c :: rest) = (c != '\n' && tailOk rest) from rfl, Bool.and_eq_true,
      bne_iff_ne, tailOk_iff]
    constructor
    · rintro ⟨hc, h | ⟨b, hb, hbn⟩⟩
      · refine ⟨c :: rest, [], by simp, by simp, fun hx => ?_, Or.inl rfl⟩
        rcases List.mem_cons.mp hx with h1 | h2
        · exact hc h1.symm
        · exact h h2
      · refine ⟨c :: b, ['\n'], by rw [hb, List.cons_append], by simp, fun hx => ?_, Or.inr rfl⟩
        rcases List.mem_cons.mp hx with h1 | h2
        · exact hc h1.symm
        · exact hbn h2
    · rintro ⟨body, tl, hl, hbne, hbn, htl⟩
      cases body with
      | nil => exact absurd rfl hbne
      | cons bh bt =>
        rw [List.cons_append] at hl
        injection hl with h1 h2
        subst h1
        refine ⟨fun hx => hbn (List.mem_cons.mpr (Or.inl hx.symm)), ?_⟩
        have hbtn : '\n' ∉ bt := fun hx => hbn (List.mem_cons_of_mem _ hx)
        rcases htl with h3 | h3
        · subst h3; rw [List.append_nil] at h2; subst h2; exact Or.inl hbtn
        · subst h3; subst h2; exact Or.inr ⟨bt, rfl, hbtn⟩

/-- The tail matcher succeeds exactly on the decomposition described by
the regex after the `arn:` literal, and captures the 12-digit segment. -/
theorem arnMatchTail_eq_some_iff (l acct : List Char) :
    arnMatchTail l = some acct ↔
      ∃ p sv r res tl : List Char,
        l = p ++ ':' :: (sv ++ ':' :: (r ++ ':' :: (acct ++ ':' :: (res ++ tl)))) ∧
        p ≠ [] ∧ ':' ∉ p ∧ sv ≠ [] ∧ ':' ∉ sv ∧ ':' ∉ r ∧
        acct.length = 12 ∧ (∀ c ∈ acct, isPyDigit c = true) ∧
        res ≠ [] ∧ '\n' ∉ res ∧ (tl = [] ∨ tl = ['\n']) := by
  constructor
  · intro h
    simp only [arnMatchTail] at h
    split at h
    · simp at h
    · rename_i p1 r1 heq1
      split at h
      · simp at h
      · rename_i hne1
        split at h
        · simp at h
        · rename_i sv r2 heq2
          split at h
          · simp at h
          · rename_i hne2
            split at h
            · simp at h
            · rename_i rr r3 heq3
              split at h
              · rename_i hcnd
                rw [Option.some.injEq] at h
                subst h
                obtain ⟨hlen, hall, hafter⟩ := hcnd
                obtain ⟨hl1, hp1⟩ := takeSeg_sound l p1 r1 heq1
                obtain ⟨hl2, hp2⟩ := takeSeg_sound r1 sv r2 heq2
                obtain ⟨hl3, hp3⟩ := takeSeg_sound r2 rr r3 heq3
                cases hd4 : r3.drop 12 with
                | nil => rw [hd4] at hafter; simp [afterAcct] at hafter
                | cons c res =>
                  rw [hd4] at hafter
                  simp only [afterAcct, Bool.and_eq_true, beq_iff_eq] at hafter
                  obtain ⟨hc, hro⟩ := hafter
                  obtain ⟨body, tl, hres, hbne, hbn, htl⟩ := (restOk_iff res).mp hro
                  refine ⟨p1, sv, rr, body, tl, ?_, ?_, hp1, ?_, hp2, hp3,
                    hlen, ?_, hbne, hbn, htl⟩
                  · conv_lhs => rw [hl1, hl2, hl3,
                      show r3 = r3.take 12 ++ ':' :: (body ++ tl) from by
                        conv_lhs => rw [← List.take_append_drop 12 r3]
                        rw [hd4, hc, hres]]
                  · simpa [List.isEmpty_iff] using hne1
                  · simpa [List.isEmpty_iff] using hne2
                  · exact List.all_eq_true.mp hall
              · simp at h
  · rintro ⟨p, sv, r, res, tl, hl, hpne, hp, hsvne, hsv, hr, hlen, hdig, hresne, hresn, htl⟩
    subst hl
    simp only [arnMatchTail, takeSeg_complete p hp, takeSeg_complete sv hsv,
      takeSeg_complete r hr]
    rw [if_neg (by simpa [List.isEmpty_iff] using hpne)]
    rw [if_neg (by simpa [List.isEmpty_iff] using hsvne)]
    rw [List.take_left' hlen, List.drop_left' hlen]
    rw [if_pos ?side]
    case side =>
      refine ⟨hlen, ?_, ?_⟩
      · exact List.all_eq_true.mpr hdig
      · simp only [afterAcct, Bool.and_eq_true, beq_self_eq_true, true_and]
        exact (restOk_iff (res ++ tl)).mpr ⟨res, tl, rfl, hresne, hresn, htl⟩

/-- `extract_account_id_from_arn` returns an account exactly on strings of
the shape `ArnShape`. -/
theorem extract_eq_some_iff (s a : String) :
    extract_account_id_from_arn s = some a ↔ ArnShape s a := by
  constructor
  · intro h
    unfold extract_account_id_from_arn at h
    split at h
    · rename_i c1 c2 c3 c4 rest heq
      split at h
      · rename_i hlit
        obtain ⟨h1, h2, h3, h4⟩ := hlit
        subst h1; subst h2; subst h3; subst h4
        split at h
        · rename_i acct hmt
          rw [Option.some.injEq] at h
          subst h
          obtain ⟨p, sv, r, res, tl, hrest, rest_props⟩ :=
            (arnMatchTail_eq_some_iff rest acct).mp hmt
          refine ⟨p, sv, r, res, tl, ?_, rest_props⟩
          rw [heq, hrest]
        · simp at h
      · simp at h
    · simp at h
  · rintro ⟨p, sv, r, res, tl, hdata, hprops⟩
    unfold extract_account_id_from_arn
    split
    · rename_i c1 c2 c3 c4 rest heq
      rw [hdata] at heq
      injection heq with e1 heq; injection heq with e2 heq
      injection heq with e3 heq; injection heq with e4 heq
      subst e1; subst e2; subst e3; subst e4
      rw [if_pos ⟨rfl, rfl, rfl, rfl⟩]
      have hmt : arnMatchTail rest = some a.data :=
        (arnMatchTail_eq_some_iff rest a.data).mpr ⟨p, sv, r, res, tl, heq.symm, hprops⟩
      rw [hmt]
    · rename_i hno
      exact absurd (hdata ▸ rfl) (hno 'a' 'r' 'n' ':'
        (p ++ ':' :: (sv ++ ':' :: (r ++ ':' :: (a.data ++ ':' :: (res ++ tl))))))

/-! ## Claim theorems -/

/-- C4: for every string matching the ARN pattern (literal `arn`, colon
segments, 12-digit 5th segment, non-empty resource), the inspector returns
exactly the 12-digit account segment; for every other string it returns
`none` — the single failure kind, and the function is pure. -/
theorem claim_C4 :
    (∀ s a : String, ArnShape s a → extract_account_id_from_arn s = some a) ∧
    (∀ s : String, (¬ ∃ a, ArnShape s a) → extract_account_id_from_arn s = none) := by
  constructor
  · intro s a h
    exact (extract_eq_some_iff s a).mpr h
  · intro s h
    cases hx : extract_account_id_from_arn s with
    | none => rfl
    | some a => exact absurd ⟨a, (extract_eq_some_iff s a).mp hx⟩ h

/-- Witness for C4: a well-formed stage ARN yields its account segment and
a non-matching string yields `none`. -/
theorem claim_C4_witness :
    extract_account_id_from_arn "arn:aws:ivs:us-east-1:123456789012:stage/demo"
      = some "123456789012" ∧
    extract_account_id_from_arn "not-an-arn" = none := by
  constructor
  · exact claim_C4.1 _ _
      ⟨"aws".data, "ivs".data, "us-east-1".data, "stage/demo".data, [], by decide⟩
  · refine claim_C4.2 _ ?_
    rintro ⟨a, ha⟩
    unfold ArnShape at ha
    obtain ⟨p, sv, r, res, tl, hdata, -⟩ := ha
    simp at hdata

/-- C10: the inspector rejects strings whose first colon-delimited segment
is not the literal `arn` and strings whose resource part after the
12-digit account segment is empty, even when the 5th segment is 12 digits;
and of the three leading segments after `arn`, only the region (4th
overall) may be empty — an empty partition or service segment is also
rejected. -/
theorem claim_C10 :
    (∀ s : String, firstSegment s ≠ ['a', 'r', 'n'] →
      extract_account_id_from_arn s = none) ∧
    (∀ p sv r a : String, p.data ≠ [] → ':' ∉ p.data → sv.data ≠ [] → ':' ∉ sv.data →
      ':' ∉ r.data → a.data.length = 12 → (∀ c ∈ a.data, c.isDigit) →
      extract_account_id_from_arn
        ("arn:" ++ p ++ ":" ++ sv ++ ":" ++ r ++ ":" ++ a ++ ":") = none) ∧
    (∀ rest : String, extract_account_id_from_arn ("arn::" ++ rest) = none) ∧
    (∀ p rest : String, ':' ∉ p.data →
      extract_account_id_from_arn ("arn:" ++ p ++ "::" ++ rest) = none) := by
  have hnone : ∀ s : String, (∀ a : String, ¬ ArnShape s a) →
      extract_account_id_from_arn s = none := by
    intro s h
    cases hx : extract_account_id_from_arn s with
    | none => rfl
    | some a => exact absurd ((extract_eq_some_iff s a).mp hx) (h a)
  refine ⟨?_, ?_, ?_, ?_⟩
  · intro s hfs
    refine hnone s fun a ha => ?_
    unfold ArnShape at ha
    obtain ⟨p, sv, r, res, tl, hdata, -⟩ := ha
    refine hfs ?_
    rw [firstSegment, hdata]
    rfl
  · intro p sv r a hpne hp hsvne hsv hr hlen hdig
    refine hnone _ fun a' ha' => ?_
    unfold ArnShape at ha'
    obtain ⟨p', sv', r', res', tl', hdata, _, hp', _, hsv', hr', hlen', hdig', hresne', -, -⟩ := ha'
    rw [show ("arn:" ++ p ++ ":" ++ sv ++ ":" ++ r ++ ":" ++ a ++ ":").data
        = 'a' :: 'r' :: 'n' :: ':' ::
          (p.data ++ ':' :: (sv.data ++ ':' :: (r.data ++ ':' :: (a.data ++ ':' :: ([] ++ []))))) from by
      simp [String.data_append]] at hdata
    have h0 := hdata
    injection h0 with _ h0; injection h0 with _ h0; injection h0 with _ h0; injection h0 with _ h0
    obtain ⟨hpe, h1⟩ := colon_split_unique _ _ _ _ hp hp' h0
    obtain ⟨hsve, h2⟩ := colon_split_unique _ _ _ _ hsv hsv' h1
    obtain ⟨hre, h3⟩ := colon_split_unique _ _ _ _ hr hr' h2
    have hadig : ':' ∉ a.data := fun hx => by
      have := hdig ':' hx
      simp [Char.isDigit] at this
    have hadig' : ':' ∉ a'.data := fun hx => by
      have hpd := hdig' ':' hx
      exact absurd hpd (by decide)
    obtain ⟨hae, h4⟩ := colon_split_unique _ _ _ _ hadig hadig' h3
    exact hresne' (List.append_eq_nil.mp h4.symm).1
  · intro rest
    refine hnone _ fun a ha => ?_
    unfold ArnShape at ha
    obtain ⟨p, sv, r, res, tl, hdata, hpne, hp, -⟩ := ha
    rw [show ("arn::" ++ rest).data = 'a' :: 'r' :: 'n' :: ':' :: ([] ++ ':' :: rest.data) from by
      simp [String.data_append]] at hdata
    have h0 := hdata
    injection h0 with _ h0; injection h0 with _ h0; injection h0 with _ h0; injection h0 with _ h0
    obtain ⟨hpe, -⟩ := colon_split_unique _ _ _ _ (by simp) hp h0
    exact hpne hpe.symm
  · intro p rest hp
    refine hnone _ fun a ha => ?_
    unfold ArnShape at ha
    obtain ⟨p', sv', r', res', tl', hdata, hpne', hp', hsvne', hsv', -⟩ := ha
    rw [show ("arn:" ++ p ++ "::" ++ rest).data
        = 'a' :: 'r' :: 'n' :: ':' :: (p.data ++ ':' :: ([] ++ ':' :: rest.data)) from by
      simp [String.data_append]] at hdata
    have h0 := hdata
    injection h0 with _ h0; injection h0 with _ h0; injection h0 with _ h0; injection h0 with _ h0
    obtain ⟨hpe, h1⟩ := colon_split_unique _ _ _ _ hp hp' h0
    obtain ⟨hsve, -⟩ := colon_split_unique _ _ _ _ (by simp) hsv' h1
    exact hsvne' hsve.symm

/-- Witness for C10: a 12-digit 5th segment does not rescue a bad first
segment or an empty resource, and an empty region is the only empty
segment the pattern tolerates. -/
theorem claim_C10_witness :
    extract_account_id_from_arn "xrn:aws:ivs:us-east-1:123456789012:stage/demo" = none ∧
    extract_account_id_from_arn "arn:aws:ivs:us-east-1:123456789012:" = none ∧
    extract_account_id_from_arn "arn::ivs:us-east-1:123456789012:stage/demo" = none ∧
    extract_account_id_from_arn "arn:aws::us-east-1:123456789012:stage/demo" = none := by
  refine ⟨?_, ?_, ?_, ?_⟩
  · exact claim_C10.1 _ (by decide)
  · exact claim_C10.2.1 "aws" "ivs" "us-east-1" "123456789012"
      (by decide) (by decide) (by decide) (by decide) (by decide) (by decide) (by decide)
  · exact claim_C10.2.2.1 "ivs:us-east-1:123456789012:stage/demo"
  · exact claim_C10.2.2.2 "aws" "us-east-1:123456789012:stage/demo" (by decide)

/-- C5 (code bug): a cache file whose content is the valid JSON document
`5` decodes, and then the membership test `"token" in meta` raises an
uncaught `TypeError` instead of the documented "(None, None) if
missing/invalid" treat-as-no-cache result. -/
theorem claim_C5_bug :
    load_existing_token (some (Content.jdoc (PyVal.vint 5) 0 0)) = .error PyErr.typeError := rfl

/-- C1 (code bug): a full run over a cache file containing the JSON text
`5`, with a valid ARN, duration and target directory, dies with the
uncaught `TypeError` from the loader — the process ends with a traceback
(runtime exit 1), not through `InvalidInvocation` or `IssuanceError`, and
the condition is not absorbed into a treat-as-no-cache refresh. -/
theorem claim_C1_bug :
    RefreshTool.main
      { stageArn := "arn:aws:ivs:us-east-1:123456789012:stage/demo",
        durationMinutes := 720, capability := [], noSafetyMargin := false,
        pathSt := .file (Content.jdoc (PyVal.vint 5) 0 0), parentSt := .isDir,
        now := 1800000000000000, backupTs := "20270115T090000", tokenName := "token.json",
        renameFails := false, issuance := none, sts := none, localOff := 0 }
      = .error PyErr.typeError := rfl

/-- C2: `is_token_valid` computes `now + margin < expirationTime` under
strict inequality (so an expiration one second below `now + margin` is
invalid and one second above is valid; instants are in microseconds, the
margin in seconds); it returns false whenever the field is missing,
unparseable, of a non-timestamp type, or the record is not a dict (every
error is caught, fail closed); a timezone-less expiration is compared as
if it were UTC; and a `datetime`-typed expiration is compared by the same
strict rule. -/
theorem claim_C2 :
    (∀ (kvs : List (String × PyVal)) (s : String) (d : PyDateTime) (now margin : Int),
      lookupKV kvs "expirationTime" = some (.vstr s) → fromisoformat s = some d →
      (is_token_valid (.vdict kvs) now margin = true ↔
        now + margin * 1000000 < utcInstant d)) ∧
    (∀ (kvs : List (String × PyVal)) (s : String) (d : PyDateTime) (now margin : Int),
      lookupKV kvs "expirationTime" = some (.vstr s) → fromisoformat s = some d →
      utcInstant d = now + margin * 1000000 - 1000000 →
      is_token_valid (.vdict kvs) now margin = false) ∧
    (∀ (kvs : List (String × PyVal)) (s : String) (d : PyDateTime) (now margin : Int),
      lookupKV kvs "expirationTime" = some (.vstr s) → fromisoformat s = some d →
      utcInstant d = now + margin * 1000000 + 1000000 →
      is_token_valid (.vdict kvs) now margin = true) ∧
    (∀ (kvs : List (String × PyVal)) (s : String) (now margin : Int),
      lookupKV kvs "expirationTime" = some (.vstr s) → fromisoformat s = none →
      is_token_valid (.vdict kvs) now margin = false) ∧
    (∀ (kvs : List (String × PyVal)) (now margin : Int),
      lookupKV kvs "expirationTime" = none →
      is_token_valid (.vdict kvs) now margin = false) ∧
    (∀ (v : PyVal) (now margin : Int), (∀ kvs, v ≠ .vdict kvs) →
      is_token_valid v now margin = false) ∧
    (∀ (kvs : List (String × PyVal)) (v : PyVal) (now margin : Int),
      lookupKV kvs "expirationTime" = some v →
      (∀ s, v ≠ .vstr s) → (∀ d, v ≠ .vdatetime d) →
      is_token_valid (.vdict kvs) now margin = false) ∧
    (∀ (kvs : List (String × PyVal)) (d : PyDateTime) (now margin : Int),
      lookupKV kvs "expirationTime" = some (.vdatetime d) →
      (is_token_valid (.vdict kvs) now margin = true ↔
        now + margin * 1000000 < utcInstant d)) ∧
    (∀ (kvs : List (String × PyVal)) (s : String) (d : PyDateTime) (now margin : Int),
      lookupKV kvs "expirationTime" = some (.vstr s) → fromisoformat s = some d →
      d.off = none →
      (is_token_valid (.vdict kvs) now margin = true ↔
        now + margin * 1000000 < d.naive)) := by
  have hvc : ∀ (d : PyDateTime) (now margin : Int),
      validCompare d now margin = true ↔ now + margin * 1000000 < utcInstant d := by
    intro d now margin
    cases hoff : d.off with
    | none => simp [validCompare, hoff, utcInstant, decide_eq_true_eq]
    | some o => simp [validCompare, hoff, utcInstant, decide_eq_true_eq]
  have hstr : ∀ (kvs : List (String × PyVal)) (s : String) (now margin : Int),
      lookupKV kvs "expirationTime" = some (.vstr s) →
      is_token_valid (.vdict kvs) now margin =
        (match fromisoformat s with
         | none => false
         | some d => validCompare d now margin) := by
    intro kvs s now margin hl
    simp only [is_token_valid, pyGetItem, hl]
  refine ⟨?_, ?_, ?_, ?_, ?_, ?_, ?_, ?_, ?_⟩
  · intro kvs s d now margin hl hp
    rw [hstr kvs s now margin hl, hp]
    exact hvc d now margin
  · intro kvs s d now margin hl hp hb
    rw [hstr kvs s now margin hl, hp]
    cases hE : validCompare d now margin with
    | false => exact hE
    | true => exact absurd ((hvc d now margin).mp hE) (by omega)
  · intro kvs s d now margin hl hp hb
    rw [hstr kvs s now margin hl, hp]
    exact (hvc d now margin).mpr (by omega)
  · intro kvs s now margin hl hp
    rw [hstr kvs s now margin hl, hp]
  · intro kvs now margin hl
    simp only [is_token_valid, pyGetItem, hl]
  · intro v now margin hv
    cases v with
    | vdict kvs => exact absurd rfl (hv kvs)
    | vnull => rfl
    | vbool b => rfl
    | vint n => rfl
    | vstr s => rfl
    | vlist xs => rfl
    | vdatetime d => rfl
  · intro kvs v now margin hl hs hd
    simp only [is_token_valid, pyGetItem, hl]
  · intro kvs d now margin hl
    simp only [is_token_valid, pyGetItem, hl]
    exact hvc d now margin
  · intro kvs s d now margin hl hp hoff
    rw [hstr kvs s now margin hl, hp]
    exact (hvc d now margin).trans (by rw [show utcInstant d = d.naive from by
      simp [utcInstant, hoff]])

/-- Witness for C2: a concrete record is valid strictly below the margin
boundary, invalid exactly at `now + margin - 1`, valid at
`now + margin + 1`, and an unparseable expiration is invalid. -/
theorem claim_C2_witness :
    is_token_valid
      (.vdict [("expirationTime", .vstr "2027-01-15T08:00:00+00:00")])
      (1800000000000000 - 300000001) 300 = true ∧
    is_token_valid
      (.vdict [("expirationTime", .vstr "2027-01-15T08:00:00+00:00")])
      1799999701000000 300 = false ∧
    is_token_valid
      (.vdict [("expirationTime", .vstr "2027-01-15T08:00:00+00:00")])
      1799999699000000 300 = true ∧
    is_token_valid
      (.vdict [("expirationTime", .vstr "tomorrow")]) 1800000000000000 300 = false := by
  refine ⟨?_, ?_, ?_, ?_⟩
  · exact (claim_C2.1 [("expirationTime", .vstr "2027-01-15T08:00:00+00:00")]
      "2027-01-15T08:00:00+00:00" ⟨1800000000000000, some 0⟩
      (1800000000000000 - 300000001) 300 rfl rfl).mpr (by decide)
  · exact claim_C2.2.1 [("expirationTime", .vstr "2027-01-15T08:00:00+00:00")]
      "2027-01-15T08:00:00+00:00" ⟨1800000000000000, some 0⟩ 1799999701000000 300
      rfl rfl (by decide)
  · exact claim_C2.2.2.1 [("expirationTime", .vstr "2027-01-15T08:00:00+00:00")]
      "2027-01-15T08:00:00+00:00" ⟨1800000000000000, some 0⟩ 1799999699000000 300
      rfl rfl (by decide)
  · exact claim_C2.2.2.2.1 [("expirationTime", .vstr "tomorrow")] "tomorrow"
      1800000000000000 300 rfl rfl

/-- C8: every invocation whose requested duration lies outside
[1, 20160] minutes ends with exit code 1, no network call attempted and no
file written (whichever validation step rejects first). -/
theorem claim_C8 (env : Env) (h : env.durationMinutes < 1 ∨ 20160 < env.durationMinutes) :
    ∃ r : RunResult, RefreshTool.main env = .ok r ∧ r.exitCode = 1 ∧
      r.networkCalls = 0 ∧ r.fileWrites = 0 := by
  unfold RefreshTool.main
  split
  · exact ⟨_, rfl, rfl, rfl, rfl⟩
  · split
    · exact ⟨_, rfl, rfl, rfl, rfl⟩
    · exact ⟨_, rfl, rfl, rfl, rfl⟩
    · split
      · exact ⟨_, rfl, rfl, rfl, rfl⟩
      · rw [if_pos h]
        exact ⟨_, rfl, rfl, rfl, rfl⟩

/-- Witness for C8: `--duration-minutes 0` on an otherwise healthy
invocation exits 1 with no network call and no write. -/
theorem claim_C8_witness :
    ∃ r : RunResult,
      RefreshTool.main
        { stageArn := "arn:aws:ivs:us-east-1:123456789012:stage/demo",
          durationMinutes := 0, capability := [], noSafetyMargin := false,
          pathSt := .missing, parentSt := .isDir, now := 1800000000000000,
          backupTs := "20270115T090000", tokenName := "token.json",
          renameFails := false, issuance := none, sts := none, localOff := 0 }
        = .ok r ∧ r.exitCode = 1 ∧ r.networkCalls = 0 ∧ r.fileWrites = 0 :=
  claim_C8 _ (Or.inl (by decide))

theorem load_raw (c : Content) (m : Option PyVal) (oldRaw : Option Content)
    (h : load_existing_token (some c) = .ok (m, oldRaw)) : oldRaw = some c.strip := by
  simp only [load_existing_token] at h
  split at h
  · split at h
    · simp at h
    · split at h
      · split at h
        · simp at h
        · split at h
          · rw [Except.ok.injEq, Prod.mk.injEq] at h
            exact h.2.symm
          · rw [Except.ok.injEq, Prod.mk.injEq] at h
            exact h.2.symm
      · rw [Except.ok.injEq, Prod.mk.injEq] at h
        exact h.2.symm
  · rw [Except.ok.injEq, Prod.mk.injEq] at h
    exact h.2.symm

theorem load_some_meta (file : Option Content) (meta : PyVal) (oldRaw : Option Content)
    (h : load_existing_token file = .ok (some meta, oldRaw)) :
    pyContains meta "token" = .ok true ∧ pyContains meta "expirationTime" = .ok true := by
  cases file with
  | none =>
    simp only [load_existing_token] at h
    simp at h
  | some c =>
    simp only [load_existing_token] at h
    split at h
    · rename_i meta2 hload
      split at h
      · simp at h
      · rename_i t ht
        split at h
        · rename_i httrue
          split at h
          · simp at h
          · rename_i e2 he2
            split at h
            · rename_i he2true
              rw [Except.ok.injEq, Prod.mk.injEq, Option.some.injEq] at h
              rw [← h.1]
              rw [ht, he2, httrue, he2true]
              exact ⟨rfl, rfl⟩
            · simp at h
        · simp at h
    · simp at h

theorem lookup_of_any (kvs : List (String × PyVal)) (key : String)
    (h : kvs.any (fun kv => kv.1 == key) = true) : ∃ v, lookupKV kvs key = some v := by
  induction kvs with
  | nil => simp at h
  | cons kv rest ih =>
    by_cases hk : kv.1 = key
    · exact ⟨kv.2, by simp [lookupKV, hk]⟩
    · simp only [List.any_cons, Bool.or_eq_true, beq_iff_eq] at h
      rcases h with h1 | h2
      · exact absurd h1 hk
      · obtain ⟨v, hv⟩ := ih h2
        exact ⟨v, by simp [lookupKV, hk, hv]⟩

theorem main_refresh_eval (env : Env) (sa : String)
    (metaOpt : Option PyVal) (oldRaw : Option Content)
    (hpath : env.pathSt ≠ .dir)
    (hpar : env.parentSt = .isDir ∨ env.parentSt = .missingCreatable)
    (harn : extract_account_id_from_arn env.stageArn = some sa)
    (hdur : ¬(env.durationMinutes < 1 ∨ 20160 < env.durationMinutes))
    (hload : load_existing_token (fileAt env.pathSt) = .ok (metaOpt, oldRaw))
    (hnohit : ∀ meta, metaOpt = some meta →
      (pyTruthy meta && is_token_valid meta env.now
        (if env.noSafetyMargin then 0 else 300)) = false) :
    RefreshTool.main env =
      refreshPath env env.pathSt (parentCreated env.parentSt)
        (if parentCreated env.parentSt = true then [.createdDir] else []) sa oldRaw := by
  have hps : (∃ c, env.pathSt = .file c) ∨ env.pathSt = .missing := by
    cases henv : env.pathSt with
    | dir => exact absurd henv hpath
    | missing => exact Or.inr rfl
    | file c => exact Or.inl ⟨c, rfl⟩
  rcases hps with ⟨c, hps⟩ | hps <;> rcases hpar with hp | hp <;>
    rw [hps] at hload ⊢ <;> rw [hp] <;>
    simp only [fileAt] at hload <;>
    cases metaOpt with
    | none =>
      simp only [RefreshTool.main, hps, hp, harn, hload, parentCreated, fileAt,
        if_neg hdur]
    | some meta =>
      simp only [RefreshTool.main, hps, hp, harn, hload, parentCreated, fileAt,
        if_neg hdur, hnohit meta rfl, Bool.false_eq_true, if_false]

theorem main_cachehit_eval (env : Env) (sa : String) (meta : PyVal)
    (oldRaw : Option Content) (tok : PyVal)
    (hpath : env.pathSt ≠ .dir)
    (hpar : env.parentSt = .isDir ∨ env.parentSt = .missingCreatable)
    (harn : extract_account_id_from_arn env.stageArn = some sa)
    (hdur : ¬(env.durationMinutes < 1 ∨ 20160 < env.durationMinutes))
    (hload : load_existing_token (fileAt env.pathSt) = .ok (some meta, oldRaw))
    (hhit : (pyTruthy meta && is_token_valid meta env.now
      (if env.noSafetyMargin then 0 else 300)) = true)
    (htok : pyGetItem meta "token" = .ok tok) :
    RefreshTool.main env =
      .ok ⟨0, 0, 0, parentCreated env.parentSt, fileAt env.pathSt, none, [],
        (if parentCreated env.parentSt = true then [.createdDir] else []) ++
          [.stillValid, .tokenLine tok]⟩ := by
  have hps : (∃ c, env.pathSt = .file c) ∨ env.pathSt = .missing := by
    cases henv : env.pathSt with
    | dir => exact absurd henv hpath
    | missing => exact Or.inr rfl
    | file c => exact Or.inl ⟨c, rfl⟩
  rcases hps with ⟨c, hps⟩ | hps <;> rcases hpar with hp | hp <;>
    rw [hps] at hload ⊢ <;> rw [hp] <;>
    simp only [fileAt] at hload <;>
    simp only [RefreshTool.main, hps, hp, harn, hload, parentCreated, fileAt,
      if_neg hdur, hhit, htok, if_true]

theorem refreshPath_success (env : Env) (pst : PathState) (created : Bool)
    (out0 : List OutLine) (sa : String) (oldRaw : Option Content)
    (pt : List (String × PyVal)) (tok : PyVal)
    (hiss : env.issuance = some pt)
    (htok : lookupKV pt "token" = some tok) :
    refreshPath env pst created out0 sa oldRaw =
      .ok ⟨0, 1,
        (backup_old_file (fileAt pst) oldRaw env.tokenName env.backupTs env.renameFails).2.2 + 1,
        created, some (write_new_token env.stageArn pt env.localOff),
        (backup_old_file (fileAt pst) oldRaw env.tokenName env.backupTs env.renameFails).2.1,
        (if env.capability.isEmpty then ["PUBLISH", "SUBSCRIBE"] else env.capability),
        out0 ++ [.creatingNew, .newTokenWritten, .tokenLine tok]⟩ := by
  simp only [refreshPath, hiss, htok]

/-- C3 (counterexample): with an unparseable cache file whose bytes are
"x\n" and a failing rename, the refresh succeeds and leaves exactly one
backup file with the correct name, but its content is the stripped text
"x", not a byte-for-byte copy of the pre-refresh bytes "x\n". -/
theorem claim_C3_counterexample :
    ∃ r : RunResult,
      RefreshTool.main
        { stageArn := "arn:aws:ivs:us-east-1:123456789012:stage/demo",
          durationMinutes := 720, capability := [], noSafetyMargin := false,
          pathSt := .file (Content.text "x\n"), parentSt := .isDir,
          now := 1800000000000000, backupTs := "20270115T090000", tokenName := "token.json",
          renameFails := true,
          issuance := some [("token", .vstr "tok"), ("participantId", .vstr "pid"),
            ("expirationTime", .vdatetime ⟨1800600000000000, some 0⟩), ("duration", .vint 720),
            ("capabilities", .vlist [.vstr "PUBLISH", .vstr "SUBSCRIBE"]),
            ("userId", .vnull)],
          sts := none, localOff := 0 }
        = .ok r ∧
      r.exitCode = 0 ∧
      r.backup = some ("token.json.20270115T090000.bak", Content.text "x") ∧
      Content.text "x" ≠ Content.text "x\n" := by
  refine ⟨_, rfl, rfl, rfl, ?_⟩
  intro h
  injection h with h2
  exact absurd h2 (by decide)

/-- C3 (amended): when a file exists at the cache path before a refresh
and issuance succeeds, afterwards there is exactly one backup file named
`<name>.<YYYYMMDDTHHMMSS>.bak` (local wall clock); its content is an exact
byte-for-byte copy of the pre-refresh content when the rename succeeds,
and the previously-read stripped text (`str.strip` of the pre-refresh
content) when the rename fails; and the primary path contains the new
record. -/
theorem claim_C3_amended (env : Env) (c : Content) (sa : String)
    (pt : List (String × PyVal)) (tok : PyVal)
    (metaOpt : Option PyVal) (oldRaw : Option Content)
    (hfile : env.pathSt = .file c)
    (hpar : env.parentSt = .isDir ∨ env.parentSt = .missingCreatable)
    (harn : extract_account_id_from_arn env.stageArn = some sa)
    (hdur : ¬(env.durationMinutes < 1 ∨ 20160 < env.durationMinutes))
    (hload : load_existing_token (fileAt env.pathSt) = .ok (metaOpt, oldRaw))
    (hnohit : ∀ meta, metaOpt = some meta →
      (pyTruthy meta && is_token_valid meta env.now
        (if env.noSafetyMargin then 0 else 300)) = false)
    (hiss : env.issuance = some pt)
    (htok : lookupKV pt "token" = some tok) :
    ∃ r : RunResult,
      RefreshTool.main env = .ok r ∧ r.exitCode = 0 ∧
      r.backup = some (env.tokenName ++ "." ++ env.backupTs ++ ".bak",
        if env.renameFails then c.strip else c) ∧
      r.primary = some (write_new_token env.stageArn pt env.localOff) := by
  have hmain := main_refresh_eval env sa metaOpt oldRaw (by rw [hfile]; simp) hpar
    harn hdur hload hnohit
  rw [refreshPath_success env env.pathSt _ _ sa oldRaw pt tok hiss htok] at hmain
  have hor : oldRaw = some c.strip := by
    rw [hfile] at hload
    simp only [fileAt] at hload
    exact load_raw c metaOpt oldRaw hload
  refine ⟨_, hmain, rfl, ?_, rfl⟩
  by_cases hrf : env.renameFails <;>
    simp [backup_old_file, hfile, fileAt, hor, hrf]

/-- C9: whenever issuance fails the run still terminates normally with
exit code 2, after invoking the best-effort identity lookup: if the
looked-up caller account is a non-empty string differing from the stage
account, the error output carries a hint naming both account values; and
when the lookup itself fails, the failure is swallowed as a debug note and
the run still exits 2. -/
theorem claim_C9 (env : Env) (sa : String) (metaOpt : Option PyVal) (oldRaw : Option Content)
    (hpath : env.pathSt ≠ .dir)
    (hpar : env.parentSt = .isDir ∨ env.parentSt = .missingCreatable)
    (harn : extract_account_id_from_arn env.stageArn = some sa)
    (hdur : ¬(env.durationMinutes < 1 ∨ 20160 < env.durationMinutes))
    (hload : load_existing_token (fileAt env.pathSt) = .ok (metaOpt, oldRaw))
    (hnohit : ∀ meta, metaOpt = some meta →
      (pyTruthy meta && is_token_valid meta env.now
        (if env.noSafetyMargin then 0 else 300)) = false)
    (hiss : env.issuance = none) :
    ∃ r : RunResult,
      RefreshTool.main env = .ok r ∧ r.exitCode = 2 ∧ r.fileWrites = 0 ∧
      (∀ ident ca, env.sts = some ident → dictGet ident "Account" = .vstr ca →
        ca ≠ "" → ca ≠ sa → OutLine.hintAccountMismatch (.vstr ca) sa ∈ r.out) ∧
      (env.sts = none → OutLine.stsFailed ∈ r.out) := by
  have hmain := main_refresh_eval env sa metaOpt oldRaw hpath hpar harn hdur hload hnohit
  simp only [refreshPath, hiss] at hmain
  refine ⟨_, hmain, rfl, rfl, ?_, ?_⟩
  · intro ident ca hsts hacct hne hnesa
    have hident : ident.isEmpty = false := by
      cases ident with
      | nil => rw [show dictGet [] "Account" = .vnull from rfl] at hacct; cases hacct
      | cons kv rest => rfl
    simp only [try_print_caller_identity, hsts, hident, hacct]
    simp [List.mem_append, pyTruthy, pyEqStr, hne, hnesa]
  · intro hsts
    simp only [try_print_caller_identity, hsts]
    simp [List.mem_append]

/-- Witness for the amended C3: a run over an unparseable cache file
"x\n" with a successful rename produces the byte-identical backup and the
new record at the primary path. -/
theorem claim_C3_amended_witness :
    ∃ r : RunResult,
      RefreshTool.main
        { stageArn := "arn:aws:ivs:us-east-1:123456789012:stage/demo",
          durationMinutes := 720, capability := [], noSafetyMargin := false,
          pathSt := .file (Content.text "x\n"), parentSt := .isDir,
          now := 1800000000000000, backupTs := "20270115T090000", tokenName := "token.json",
          renameFails := false,
          issuance := some [("token", .vstr "tok"), ("participantId", .vstr "pid"),
            ("expirationTime", .vdatetime ⟨1800600000000000, some 0⟩), ("duration", .vint 720),
            ("capabilities", .vlist [.vstr "PUBLISH", .vstr "SUBSCRIBE"]),
            ("userId", .vnull)],
          sts := none, localOff := 0 }
        = .ok r ∧ r.exitCode = 0 ∧
      r.backup = some ("token.json.20270115T090000.bak", Content.text "x\n") ∧
      r.primary = some (write_new_token "arn:aws:ivs:us-east-1:123456789012:stage/demo"
        [("token", .vstr "tok"), ("participantId", .vstr "pid"),
         ("expirationTime", .vdatetime ⟨1800600000000000, some 0⟩), ("duration", .vint 720),
         ("capabilities", .vlist [.vstr "PUBLISH", .vstr "SUBSCRIBE"]),
         ("userId", .vnull)] 0) :=
  claim_C3_amended _ (Content.text "x\n") "123456789012"
    [("token", .vstr "tok"), ("participantId", .vstr "pid"),
     ("expirationTime", .vdatetime ⟨1800600000000000, some 0⟩), ("duration", .vint 720),
     ("capabilities", .vlist [.vstr "PUBLISH", .vstr "SUBSCRIBE"]),
     ("userId", .vnull)] (.vstr "tok") none (some (Content.text "x"))
    rfl (Or.inl rfl) rfl (by decide) rfl (fun meta h => by cases h) rfl rfl

/-- Witness for C9: a failed issuance with a caller account differing from
the stage account exits 2 and prints the hint naming both accounts; with a
failing lookup it still exits 2 and prints the debug note. -/
theorem claim_C9_witness :
    (∃ r : RunResult,
      RefreshTool.main
        { stageArn := "arn:aws:ivs:us-east-1:123456789012:stage/demo",
          durationMinutes := 720, capability := [], noSafetyMargin := false,
          pathSt := .missing, parentSt := .isDir,
          now := 1800000000000000, backupTs := "20270115T090000", tokenName := "token.json",
          renameFails := false, issuance := none,
          sts := some [("Account", .vstr "999999999999"),
            ("Arn", .vstr "arn:aws:iam::999999999999:user/demo"), ("UserId", .vstr "AID")],
          localOff := 0 }
        = .ok r ∧ r.exitCode = 2 ∧
      OutLine.hintAccountMismatch (.vstr "999999999999") "123456789012" ∈ r.out) ∧
    (∃ r : RunResult,
      RefreshTool.main
        { stageArn := "arn:aws:ivs:us-east-1:123456789012:stage/demo",
          durationMinutes := 720, capability := [], noSafetyMargin := false,
          pathSt := .missing, parentSt := .isDir,
          now := 1800000000000000, backupTs := "20270115T090000", tokenName := "token.json",
          renameFails := false, issuance := none, sts := none, localOff := 0 }
        = .ok r ∧ r.exitCode = 2 ∧ OutLine.stsFailed ∈ r.out) := by
  constructor
  · obtain ⟨r, h1, h2, h3, h4, h5⟩ :=
      claim_C9
        { stageArn := "arn:aws:ivs:us-east-1:123456789012:stage/demo",
          durationMinutes := 720, capability := [], noSafetyMargin := false,
          pathSt := .missing, parentSt := .isDir,
          now := 1800000000000000, backupTs := "20270115T090000", tokenName := "token.json",
          renameFails := false, issuance := none,
          sts := some [("Account", .vstr "999999999999"),
            ("Arn", .vstr "arn:aws:iam::999999999999:user/demo"), ("UserId", .vstr "AID")],
          localOff := 0 }
        "123456789012" none none (fun h => PathState.noConfusion h) (Or.inl rfl) rfl
        (by decide) rfl (fun meta h => by cases h) rfl
    exact ⟨r, h1, h2, h4 _ "999999999999" rfl rfl (by decide) (by decide)⟩
  · obtain ⟨r, h1, h2, h3, h4, h5⟩ :=
      claim_C9
        { stageArn := "arn:aws:ivs:us-east-1:123456789012:stage/demo",
          durationMinutes := 720, capability := [], noSafetyMargin := false,
          pathSt := .missing, parentSt := .isDir,
          now := 1800000000000000, backupTs := "20270115T090000", tokenName := "token.json",
          renameFails := false, issuance := none, sts := none, localOff := 0 }
        "123456789012" none none (fun h => PathState.noConfusion h) (Or.inl rfl) rfl
        (by decide) rfl (fun meta h => by cases h) rfl
    exact ⟨r, h1, h2, h5 rfl⟩

theorem writeMeta_exp (arn : String) (pt : List (String × PyVal)) (off : Int)
    (d : PyDateTime) (o : Int)
    (hexp : dictGet pt "expirationTime" = .vdatetime d) (hoff : d.off = some o) :
    lookupKV (writeMeta arn pt off) "expirationTime" =
      some (.vstr (isoformatAwareUTC (utcInstant d))) := by
  simp only [writeMeta, hexp, hoff]
  simp [lookupKV, utcInstant, hoff]

/-- C7: persisting an issued record (whose `expirationTime` is an aware
`datetime` within the calendar range) renders the expiration as an
ISO-8601 UTC string; reloading from the same path decodes the record, the
`token`, `participantId` and `capabilities` fields are identical to the
issued ones, and the reloaded expiration parses back to exactly the same
UTC instant (a difference of zero, within the allowed one second). -/
theorem claim_C7 (stage_arn : String) (pt : List (String × PyVal)) (localOff : Int)
    (d : PyDateTime) (o : Int)
    (hexp : dictGet pt "expirationTime" = .vdatetime d)
    (hoff : d.off = some o)
    (hlo : -62135596800000000 ≤ utcInstant d)
    (hhi : utcInstant d ≤ 253402300799999999) :
    load_existing_token (some (write_new_token stage_arn pt localOff)) =
      .ok (some (.vdict (writeMeta stage_arn pt localOff)),
           some (write_new_token stage_arn pt localOff)) ∧
    lookupKV (writeMeta stage_arn pt localOff) "token" = some (dictGet pt "token") ∧
    lookupKV (writeMeta stage_arn pt localOff) "participantId"
      = some (dictGet pt "participantId") ∧
    lookupKV (writeMeta stage_arn pt localOff) "capabilities"
      = some (dictGet pt "capabilities") ∧
    ∃ d2 : PyDateTime,
      lookupKV (writeMeta stage_arn pt localOff) "expirationTime" =
        some (.vstr (isoformatAwareUTC (utcInstant d))) ∧
      fromisoformat (isoformatAwareUTC (utcInstant d)) = some d2 ∧
      utcInstant d2 = utcInstant d := by
  refine ⟨rfl, rfl, rfl, rfl, ⟨utcInstant d, some 0⟩,
    writeMeta_exp stage_arn pt localOff d o hexp hoff,
    fromiso_iso _ hlo hhi, by simp [utcInstant]⟩

/-- Witness for C7: a concrete issued record persists and reloads with
identical fields and the exact same expiration instant. -/
theorem claim_C7_witness :
    load_existing_token (some (write_new_token "arn:aws:ivs:us-east-1:123456789012:stage/demo"
      [("token", .vstr "tok"), ("participantId", .vstr "pid"),
       ("expirationTime", .vdatetime ⟨1800600000000000, some 0⟩), ("duration", .vint 720),
       ("capabilities", .vlist [.vstr "PUBLISH", .vstr "SUBSCRIBE"]), ("userId", .vnull)] 0)) =
      .ok (some (.vdict (writeMeta "arn:aws:ivs:us-east-1:123456789012:stage/demo"
        [("token", .vstr "tok"), ("participantId", .vstr "pid"),
         ("expirationTime", .vdatetime ⟨1800600000000000, some 0⟩), ("duration", .vint 720),
         ("capabilities", .vlist [.vstr "PUBLISH", .vstr "SUBSCRIBE"]), ("userId", .vnull)] 0)),
        some (write_new_token "arn:aws:ivs:us-east-1:123456789012:stage/demo"
          [("token", .vstr "tok"), ("participantId", .vstr "pid"),
           ("expirationTime", .vdatetime ⟨1800600000000000, some 0⟩), ("duration", .vint 720),
           ("capabilities", .vlist [.vstr "PUBLISH", .vstr "SUBSCRIBE"]), ("userId", .vnull)] 0)) ∧
    ∃ d2 : PyDateTime,
      fromisoformat (isoformatAwareUTC (utcInstant ⟨1800600000000000, some 0⟩)) = some d2 ∧
      utcInstant d2 = utcInstant ⟨1800600000000000, some 0⟩ := by
  obtain ⟨h1, h2, h3, h4, d2, h5, h6, h7⟩ :=
    claim_C7 "arn:aws:ivs:us-east-1:123456789012:stage/demo"
      [("token", .vstr "tok"), ("participantId", .vstr "pid"),
       ("expirationTime", .vdatetime ⟨1800600000000000, some 0⟩), ("duration", .vint 720),
       ("capabilities", .vlist [.vstr "PUBLISH", .vstr "SUBSCRIBE"]), ("userId", .vnull)] 0
      ⟨1800600000000000, some 0⟩ 0 rfl rfl (by decide) (by decide)
  exact ⟨h1, d2, h6, h7⟩

theorem hit_token (meta : PyVal) (oldRaw : Option Content) (file : Option Content)
    (now margin : Int)
    (hload : load_existing_token file = .ok (some meta, oldRaw))
    (hval : is_token_valid meta now margin = true) :
    ∃ tok, pyGetItem meta "token" = .ok tok := by
  obtain ⟨htok, _⟩ := load_some_meta file meta oldRaw hload
  cases meta with
  | vdict kvs =>
    simp only [pyContains, Except.ok.injEq] at htok
    obtain ⟨v, hv⟩ := lookup_of_any kvs "token" htok
    exact ⟨v, by simp [pyGetItem, hv]⟩
  | vstr s => simp [is_token_valid, pyGetItem] at hval
  | vlist xs => simp [is_token_valid, pyGetItem] at hval
  | vnull => simp [pyContains] at htok
  | vbool b => simp [pyContains] at htok
  | vint n => simp [pyContains] at htok
  | vdatetime d => simp [pyContains] at htok

/-- C6: when the loaded cache record decodes, is truthy and `is_token_valid`
holds with the configured margin, the run prints the cached token and
exits 0 with zero network calls and zero file writes; consequently a
second invocation over the file a successful refresh just wrote, while the
written expiration is still beyond the margin, takes the same cache-hit
path with zero network calls and zero file writes. -/
theorem claim_C6 :
    (∀ (env : Env) (sa : String) (meta : PyVal) (oldRaw : Option Content),
      env.pathSt ≠ .dir →
      (env.parentSt = .isDir ∨ env.parentSt = .missingCreatable) →
      extract_account_id_from_arn env.stageArn = some sa →
      ¬(env.durationMinutes < 1 ∨ 20160 < env.durationMinutes) →
      load_existing_token (fileAt env.pathSt) = .ok (some meta, oldRaw) →
      pyTruthy meta = true →
      is_token_valid meta env.now (if env.noSafetyMargin then 0 else 300) = true →
      ∃ (r : RunResult) (tok : PyVal),
        RefreshTool.main env = .ok r ∧ r.exitCode = 0 ∧
        r.networkCalls = 0 ∧ r.fileWrites = 0 ∧
        pyGetItem meta "token" = .ok tok ∧ OutLine.tokenLine tok ∈ r.out) ∧
    (∀ (env1 env2 : Env) (sa1 sa2 : String) (metaOpt : Option PyVal)
       (oldRaw : Option Content) (pt : List (String × PyVal)) (tok : PyVal)
       (d : PyDateTime) (o : Int) (r1 : RunResult),
      env1.pathSt ≠ .dir →
      (env1.parentSt = .isDir ∨ env1.parentSt = .missingCreatable) →
      extract_account_id_from_arn env1.stageArn = some sa1 →
      ¬(env1.durationMinutes < 1 ∨ 20160 < env1.durationMinutes) →
      load_existing_token (fileAt env1.pathSt) = .ok (metaOpt, oldRaw) →
      (∀ meta, metaOpt = some meta →
        (pyTruthy meta && is_token_valid meta env1.now
          (if env1.noSafetyMargin then 0 else 300)) = false) →
      env1.issuance = some pt →
      lookupKV pt "token" = some tok →
      dictGet pt "expirationTime" = .vdatetime d →
      d.off = some o →
      -62135596800000000 ≤ utcInstant d → utcInstant d ≤ 253402300799999999 →
      RefreshTool.main env1 = .ok r1 →
      env2.pathSt = (match r1.primary with
                     | some c => PathState.file c
                     | none => PathState.missing) →
      (env2.parentSt = .isDir ∨ env2.parentSt = .missingCreatable) →
      extract_account_id_from_arn env2.stageArn = some sa2 →
      ¬(env2.durationMinutes < 1 ∨ 20160 < env2.durationMinutes) →
      env2.now + (if env2.noSafetyMargin then 0 else 300) * 1000000 < utcInstant d →
      ∃ r2 : RunResult,
        RefreshTool.main env2 = .ok r2 ∧ r2.exitCode = 0 ∧
        r2.networkCalls = 0 ∧ r2.fileWrites = 0) := by
  constructor
  · intro env sa meta oldRaw hpath hpar harn hdur hload htruthy hval
    obtain ⟨tok, htok⟩ := hit_token meta oldRaw (fileAt env.pathSt) env.now
      (if env.noSafetyMargin then 0 else 300) hload hval
    refine ⟨_, tok,
      main_cachehit_eval env sa meta oldRaw tok hpath hpar harn hdur hload
        (by rw [htruthy, hval]; rfl) htok, rfl, rfl, rfl, htok, ?_⟩
    simp [List.mem_append]
  · intro env1 env2 sa1 sa2 metaOpt oldRaw pt tok d o r1
      hpath1 hpar1 harn1 hdur1 hload1 hnohit1 hiss1 htok1 hexp hoff hlo hhi
      hr1 hps2 hpar2 harn2 hdur2 hval2
    have hmain1 := main_refresh_eval env1 sa1 metaOpt oldRaw hpath1 hpar1 harn1 hdur1
      hload1 hnohit1
    rw [refreshPath_success env1 env1.pathSt _ _ sa1 oldRaw pt tok hiss1 htok1] at hmain1
    rw [hr1] at hmain1
    have hr1eq := Except.ok.inj hmain1
    rw [hr1eq] at hps2
    simp only [] at hps2
    set W := writeMeta env1.stageArn pt env1.localOff with hW
    have hps2' : env2.pathSt = .file (Content.jdoc (.vdict W) 0 0) := hps2
    have hload2 : load_existing_token (fileAt env2.pathSt) =
        .ok (some (.vdict W), some (Content.jdoc (.vdict W) 0 0)) := by
      rw [hps2']
      rfl
    have hvalid2 : is_token_valid (.vdict W) env2.now
        (if env2.noSafetyMargin then 0 else 300) = true := by
      simp only [is_token_valid, pyGetItem, hW,
        writeMeta_exp env1.stageArn pt env1.localOff d o hexp hoff,
        fromiso_iso (utcInstant d) hlo hhi, validCompare]
      simp only [Option.getD, decide_eq_true_eq]
      omega
    have htruthy2 : pyTruthy (PyVal.vdict W) = true := by rw [hW]; rfl
    have htok2 : pyGetItem (PyVal.vdict W) "token" = .ok (dictGet pt "token") := by
      rw [hW]; rfl
    exact ⟨_, main_cachehit_eval env2 sa2 (.vdict W) _ _ (by rw [hps2']; simp)
      hpar2 harn2 hdur2 hload2 (by rw [htruthy2, hvalid2]; rfl) htok2,
      rfl, rfl, rfl⟩

/-- Witness for C6: a concrete first run with no cache refreshes and
writes the record; a second run over the written file, 300 s margin still
satisfied, is a cache hit with zero network calls and zero writes; and the
cache-hit part applies to the second environment directly. -/
theorem claim_C6_witness :
    (∃ (r : RunResult) (tok : PyVal),
      RefreshTool.main
        { stageArn := "arn:aws:ivs:us-east-1:123456789012:stage/demo",
          durationMinutes := 720, capability := [], noSafetyMargin := false,
          pathSt := .file (write_new_token "arn:aws:ivs:us-east-1:123456789012:stage/demo"
            [("token", .vstr "tok"), ("participantId", .vstr "pid"),
             ("expirationTime", .vdatetime ⟨1800600000000000, some 0⟩), ("duration", .vint 720),
             ("capabilities", .vlist [.vstr "PUBLISH", .vstr "SUBSCRIBE"]),
             ("userId", .vnull)] 0),
          parentSt := .isDir, now := 1800000000000000, backupTs := "20270115T090000",
          tokenName := "token.json", renameFails := false, issuance := none,
          sts := none, localOff := 0 }
        = .ok r ∧ r.exitCode = 0 ∧ r.networkCalls = 0 ∧ r.fileWrites = 0 ∧
      pyGetItem (.vdict (writeMeta "arn:aws:ivs:us-east-1:123456789012:stage/demo"
        [("token", .vstr "tok"), ("participantId", .vstr "pid"),
         ("expirationTime", .vdatetime ⟨1800600000000000, some 0⟩), ("duration", .vint 720),
         ("capabilities", .vlist [.vstr "PUBLISH", .vstr "SUBSCRIBE"]),
         ("userId", .vnull)] 0)) "token" = .ok tok ∧
      OutLine.tokenLine tok ∈ r.out) ∧
    (∃ r2 : RunResult,
      RefreshTool.main
        { stageArn := "arn:aws:ivs:us-east-1:123456789012:stage/demo",
          durationMinutes := 720, capability := [], noSafetyMargin := false,
          pathSt := .file (write_new_token "arn:aws:ivs:us-east-1:123456789012:stage/demo"
            [("token", .vstr "tok"), ("participantId", .vstr "pid"),
             ("expirationTime", .vdatetime ⟨1800600000000000, some 0⟩), ("duration", .vint 720),
             ("capabilities", .vlist [.vstr "PUBLISH", .vstr "SUBSCRIBE"]),
             ("userId", .vnull)] 0),
          parentSt := .isDir, now := 1800000000000000, backupTs := "20270115T090000",
          tokenName := "token.json", renameFails := false, issuance := none,
          sts := none, localOff := 0 }
        = .ok r2 ∧ r2.exitCode = 0 ∧ r2.networkCalls = 0 ∧ r2.fileWrites = 0) := by
  constructor
  · exact claim_C6.1 _ "123456789012" _ _ (fun h => by cases h) (Or.inl rfl) rfl
      (by decide) rfl rfl (by decide)
  · exact claim_C6.2
      { stageArn := "arn:aws:ivs:us-east-1:123456789012:stage/demo",
        durationMinutes := 720, capability := [], noSafetyMargin := false,
        pathSt := .missing, parentSt := .isDir, now := 1800000000000000,
        backupTs := "20270115T090000", tokenName := "token.json",
        renameFails := false,
        issuance := some [("token", .vstr "tok"), ("participantId", .vstr "pid"),
          ("expirationTime", .vdatetime ⟨1800600000000000, some 0⟩), ("duration", .vint 720),
          ("capabilities", .vlist [.vstr "PUBLISH", .vstr "SUBSCRIBE"]),
          ("userId", .vnull)],
        sts := none, localOff := 0 }
      _ "123456789012" "123456789012" none none
      [("token", .vstr "tok"), ("participantId", .vstr "pid"),
       ("expirationTime", .vdatetime ⟨1800600000000000, some 0⟩), ("duration", .vint 720),
       ("capabilities", .vlist [.vstr "PUBLISH", .vstr "SUBSCRIBE"]), ("userId", .vnull)]
      (.vstr "tok") ⟨1800600000000000, some 0⟩ 0
      ⟨0, 1, 1, false, some (write_new_token "arn:aws:ivs:us-east-1:123456789012:stage/demo"
        [("token", .vstr "tok"), ("participantId", .vstr "pid"),
         ("expirationTime", .vdatetime ⟨1800600000000000, some 0⟩), ("duration", .vint 720),
         ("capabilities", .vlist [.vstr "PUBLISH", .vstr "SUBSCRIBE"]),
         ("userId", .vnull)] 0), none, ["PUBLISH", "SUBSCRIBE"],
        [.creatingNew, .newTokenWritten, .tokenLine (.vstr "tok")]⟩
      (fun h => by cases h) (Or.inl rfl) rfl (by decide) rfl
      (fun meta h => by cases h) rfl rfl rfl rfl (by decide) (by decide)
      rfl rfl (Or.inl rfl) rfl (by decide) (by decide)
